import Mathlib

/-
  Verification development for the rendgine-rs rendering toolkit.

  The Rust sources (src/graphics.rs, src/camera.rs) are shallowly embedded
  below.  f32 values are modelled as exact rationals; the camera component,
  whose algorithms can produce NaN, uses a scalar type F that is either a
  rational value or NaN.  External OpenGL calls (buffer upload, draw calls,
  uniform resolution) are modelled by recording the observable request
  (a DrawCall value, a GLCall trace) or by an oracle parameter.
-/

namespace Rendgine

/-- The Usage enum of src/graphics.rs: one variant per vertex channel. -/
inductive Usage where
  | POSITIONS
  | COLORS
  | NORMALS
  | TEXCOORDS
  | INDICES
deriving DecidableEq, Repr

/-- Usage::position: the fixed binding slot of each channel. -/
def Usage.position : Usage → Nat
  | .POSITIONS => 0
  | .COLORS => 1
  | .NORMALS => 2
  | .TEXCOORDS => 3
  | .INDICES => 4

/-- Usage::offset: the component count of each channel (u8 in the source;
the values are at most 4 so Nat is a faithful model). -/
def Usage.offset : Usage → Nat
  | .POSITIONS => 3
  | .COLORS => 4
  | .NORMALS => 3
  | .TEXCOORDS => 2
  | .INDICES => 3

/-- The iteration order of the strum EnumIter derive on Usage:
declaration order. -/
def usageIter : List Usage :=
  [.POSITIONS, .COLORS, .NORMALS, .TEXCOORDS, .INDICES]

/-- VertexAttributes of src/graphics.rs.  vertex_size is u8 in the source;
its computed values are at most 12, so Nat models it without overflow. -/
structure VertexAttributes where
  vertex_size : Nat
  has_positions : Bool
  has_colors : Bool
  has_normals : Bool
  has_tex_coords : Bool
deriving DecidableEq, Repr

/-- VertexAttributes::with (renamed: with is a Lean keyword).  Sums the
component counts of the enabled channels, in source order. -/
def VertexAttributes.withFlags (has_positions has_colors has_normals has_tex_coords : Bool) :
    VertexAttributes :=
  let va : VertexAttributes :=
    { vertex_size := 0, has_positions, has_colors, has_normals, has_tex_coords }
  let va := if has_positions then { va with vertex_size := va.vertex_size + Usage.POSITIONS.offset } else va
  let va := if has_colors then { va with vertex_size := va.vertex_size + Usage.COLORS.offset } else va
  let va := if has_normals then { va with vertex_size := va.vertex_size + Usage.NORMALS.offset } else va
  let va := if has_tex_coords then { va with vertex_size := va.vertex_size + Usage.TEXCOORDS.offset } else va
  va

/-- VertexAttributes::offset: early-return chain of the source, written as
nested conditionals.  A disabled or unmatched channel falls through to 0. -/
def VertexAttributes.offset (va : VertexAttributes) (usage : Usage) : Nat :=
  -- off accumulates exactly as the mutable local in the source
  let off := 0
  if va.has_positions ∧ usage = .POSITIONS then off
  else
    let off := if va.has_positions then off + Usage.POSITIONS.offset else off
    if va.has_colors ∧ usage = .COLORS then off
    else
      let off := if va.has_colors then off + Usage.COLORS.offset else off
      if va.has_normals ∧ usage = .NORMALS then off
      else
        let off := if va.has_normals then off + Usage.NORMALS.offset else off
        if va.has_tex_coords ∧ usage = .TEXCOORDS then off
        else 0

/-- VertexAttributes::usage: whether a channel is enabled in this layout. -/
def VertexAttributes.usage (va : VertexAttributes) (u : Usage) : Bool :=
  (u = .POSITIONS ∧ va.has_positions) ∨ (u = .COLORS ∧ va.has_colors)
    ∨ (u = .NORMALS ∧ va.has_normals) ∨ (u = .TEXCOORDS ∧ va.has_tex_coords)

/-- VertexBufferObject of src/graphics.rs.  The GPU handle and the GL
binding calls are external; the retained fields are the usage tag, the
CPU-side data, the write cursor and the dirty flag. -/
structure VertexBufferObject where
  usage : Usage
  data : List ℚ
  offset : Nat
  dirty : Bool
deriving DecidableEq, Repr

namespace VertexBufferObject

/-- VertexBufferObject::new. -/
def new (usage : Usage) : VertexBufferObject :=
  { usage, data := [], offset := 0, dirty := false }

/-- VertexBufferObject::bind: the GPU upload is external; when dirty the
full contents are uploaded and the dirty flag is cleared. -/
def bind (v : VertexBufferObject) : VertexBufferObject :=
  { v with dirty := false }

/-- VertexBufferObject::set_data. -/
def set_data (v : VertexBufferObject) (d : List ℚ) : VertexBufferObject :=
  { v with data := d, offset := d.length, dirty := true }

/-- VertexBufferObject::add_data_slice. -/
def add_data_slice (v : VertexBufferObject) (d : List ℚ) : VertexBufferObject :=
  { v with data := v.data ++ d, offset := v.offset + d.length, dirty := true }

/-- VertexBufferObject::add_data. -/
def add_data (v : VertexBufferObject) (x : ℚ) : VertexBufferObject :=
  { v with data := v.data ++ [x], offset := v.offset + 1, dirty := true }

/-- VertexBufferObject::clear. -/
def clear (v : VertexBufferObject) : VertexBufferObject :=
  { v with data := [], offset := 0, dirty := true }

end VertexBufferObject

/-- A draw call issued to the graphics API: DrawElements with an index
count, or DrawArrays with the count passed as third argument. -/
inductive DrawCall where
  | elements (primitive : Nat) (count : Nat)
  | arrays (primitive : Nat) (count : Nat)
deriving DecidableEq, Repr

/-- VertexArrayObject of src/graphics.rs. -/
structure VertexArrayObject where
  vbos : List VertexBufferObject
  vbo_indices : VertexBufferObject
  bound : Bool
deriving DecidableEq, Repr

namespace VertexArrayObject

/-- VertexArrayObject::new: one VBO per enabled channel, in Usage
iteration order, plus a dedicated index VBO.  VertexAttributes::usage is
false for INDICES, so the index channel is never among vbos. -/
def new (attribs : VertexAttributes) : VertexArrayObject :=
  { vbos := (usageIter.filter (fun u => attribs.usage u)).map VertexBufferObject.new,
    vbo_indices := VertexBufferObject.new .INDICES,
    bound := false }

/-- The inner loop of VertexArrayObject::vertex: appends count values of
data, starting at index start, to one VBO via add_data.  An out-of-range
index is a Rust panic, modelled as none. -/
def addLoop : VertexBufferObject → List ℚ → Nat → Nat → Option VertexBufferObject
  | v, _, _, 0 => some v
  | v, data, start, k + 1 =>
    match data[start]? with
    | some x => addLoop (v.add_data x) data (start + 1) k
    | none => none

/-- The outer loop of VertexArrayObject::vertex over the channel VBOs. -/
def vloop : List VertexBufferObject → List ℚ → Nat → Option (List VertexBufferObject)
  | [], _, _ => some []
  | v :: rest, data, off =>
    match addLoop v data off v.usage.offset with
    | none => none
    | some v2 =>
      match vloop rest data (off + v.usage.offset) with
      | none => none
      | some r2 => some (v2 :: r2)

/-- VertexArrayObject::vertex: de-interleaves one full vertex into the
per-channel VBOs.  none models the panic on an out-of-range index. -/
def vertex (vao : VertexArrayObject) (data : List ℚ) : Option VertexArrayObject :=
  (vloop vao.vbos data 0).map (fun vs => { vao with vbos := vs })

/-- VertexArrayObject::clear. -/
def clear (vao : VertexArrayObject) : VertexArrayObject :=
  { vao with vbos := vao.vbos.map VertexBufferObject.clear,
             vbo_indices := vao.vbo_indices.clear }

/-- VertexArrayObject::get_vertex_offset: running component sum until the
queried usage is found among the VBOs. -/
def get_vertex_offset (vao : VertexArrayObject) (usage : Usage) : Nat :=
  go vao.vbos 0
where
  go : List VertexBufferObject → Nat → Nat
    | [], i => i
    | v :: rest, i => if usage = v.usage then i else go rest (i + v.usage.offset)

/-- VertexArrayObject::bind: binds (uploading dirty buffers) and marks
the object bound. -/
def bind (vao : VertexArrayObject) : VertexArrayObject :=
  { vao with vbos := vao.vbos.map VertexBufferObject.bind,
             vbo_indices := vao.vbo_indices.bind,
             bound := true }

/-- VertexArrayObject::render: panics (none) when not bound; issues
DrawElements with the index write cursor when the index buffer has
contents, else DrawArrays with vbos[0].data.len() as the count argument
(indexing an empty vbos vector is likewise a panic). -/
def render (vao : VertexArrayObject) (primitive : Nat) : Option DrawCall :=
  if ¬ vao.bound then none
  else if vao.vbo_indices.offset > 0 then
    some (.elements primitive vao.vbo_indices.offset)
  else
    match vao.vbos with
    | [] => none
    | v :: _ => some (.arrays primitive v.data.length)

/-- VertexArrayObject::unbind. -/
def unbind (vao : VertexArrayObject) : VertexArrayObject :=
  { vao with bound := false }

end VertexArrayObject

/-- One observable OpenGL request made by the ShaderProgram uniform
setters. -/
inductive GLCall where
  | getUniformLocation (name : String) (result : Int)
  | uniformMatrix4fv (loc : Int)
  | uniform1f (loc : Int)
  | uniform1i (loc : Int)
deriving DecidableEq, Repr

/-- ShaderProgram of src/graphics.rs: the compiled stage and program
handles are external; retained state is the uniform-name cache and the
linked flag. -/
structure ShaderProgram where
  uniforms : List (String × Int)
  linked : Bool
deriving DecidableEq, Repr

namespace ShaderProgram

/-- ShaderProgram::new. -/
def new : ShaderProgram := { uniforms := [], linked := false }

/-- A ShaderProgram as the renderers hold it: created, both stages
compiled and the program linked (compile and link are external GL work
that only touches handles; link sets the linked flag). -/
def newLinked : ShaderProgram := { uniforms := [], linked := true }

def findUniform (sp : ShaderProgram) (name : String) : Option Int :=
  (sp.uniforms.find? (fun p => p.1 = name)).map Prod.snd

/-- ShaderProgram::check_uniform.  getLoc is the external
gl::GetUniformLocation oracle.  Returns the location and the GL calls
performed.  Note the source takes &self: the else branch resolves the
location but never inserts it into the map. -/
def check_uniform (getLoc : String → Int) (sp : ShaderProgram) (name : String) :
    Int × List GLCall :=
  match sp.findUniform name with
  | some loc => (loc, [])
  | none =>
    let loc := getLoc name
    (loc, [.getUniformLocation name loc])

/-- ShaderProgram::set_uniform_mat4f: resolves the location, then issues
UniformMatrix4fv.  The program state (&self) is returned unchanged
together with the GL call trace.  The matrix value goes to the GL call,
outside the model. -/
def set_uniform_mat4f {M : Type} (getLoc : String → Int) (sp : ShaderProgram)
    (name : String) (_val : M) : ShaderProgram × List GLCall :=
  let (loc, calls) := check_uniform getLoc sp name
  (sp, calls ++ [.uniformMatrix4fv loc])

/-- ShaderProgram::set_uniform1f32. -/
def set_uniform1f32 (getLoc : String → Int) (sp : ShaderProgram)
    (name : String) (_val : ℚ) : ShaderProgram × List GLCall :=
  let (loc, calls) := check_uniform getLoc sp name
  (sp, calls ++ [.uniform1f loc])

/-- ShaderProgram::set_uniform1i32. -/
def set_uniform1i32 (getLoc : String → Int) (sp : ShaderProgram)
    (name : String) (_val : Int) : ShaderProgram × List GLCall :=
  let (loc, calls) := check_uniform getLoc sp name
  (sp, calls ++ [.uniform1i loc])

end ShaderProgram

/-- The gl::TRIANGLES primitive constant. -/
def GL_TRIANGLES : Nat := 4

/-- Mesh of src/graphics.rs: a VertexArrayObject plus its layout. -/
structure Mesh where
  vao : VertexArrayObject
  attribs : VertexAttributes
deriving DecidableEq, Repr

namespace Mesh

/-- Mesh::new. -/
def new (attribs : VertexAttributes) : Mesh :=
  { vao := VertexArrayObject.new attribs, attribs }

/-- Mesh::vertex: delegates to the VertexArrayObject. -/
def vertex (m : Mesh) (data : List ℚ) : Option Mesh :=
  (m.vao.vertex data).map (fun v => { m with vao := v })

/-- Mesh::clear. -/
def clear (m : Mesh) : Mesh :=
  { m with vao := m.vao.clear }

/-- Mesh::get_vertex_offset. -/
def get_vertex_offset (m : Mesh) (usage : Usage) : Nat :=
  m.vao.get_vertex_offset usage

/-- Mesh::render: binds the shader when not bound externally, binds the
vertex array (uploading dirty buffers), sets the projModelView uniform
(which leaves the program state unchanged, see ShaderProgram), issues the
draw call, then unbinds.  none models the panics inside
VertexArrayObject::render.  The transform value is forwarded to the
uniform, outside the model. -/
def render {M : Type} (m : Mesh) (primitive : Nat) (_proj_model_view : M) :
    Option (Mesh × DrawCall) :=
  let vao := m.vao.bind
  match vao.render primitive with
  | none => none
  | some dc => some ({ m with vao := vao.unbind }, dc)

end Mesh

/-- MeshRenderer of src/graphics.rs: shader, a position+color mesh and
the scratch next-vertex buffer. -/
structure MeshRenderer where
  shader : ShaderProgram
  mesh : Mesh
  next_vertex : List ℚ
deriving DecidableEq, Repr

namespace MeshRenderer

/-- MeshRenderer::new: layout POSITION+COLOR, scratch buffer of
vertex_size zeros. -/
def new : MeshRenderer :=
  let mesh := Mesh.new (VertexAttributes.withFlags true true false false)
  { shader := ShaderProgram.newLinked,
    mesh,
    next_vertex := List.replicate mesh.attribs.vertex_size 0 }

/-- MeshRenderer::render: enables blending (external state), issues one
draw through the mesh, disables blending. -/
def render {M : Type} (r : MeshRenderer) (combined : M) (primitive : Nat) :
    Option (MeshRenderer × DrawCall) :=
  match r.mesh.render primitive combined with
  | none => none
  | some (m2, dc) => some ({ r with mesh := m2 }, dc)

/-- MeshRenderer::color: stages a color into the scratch buffer when the
layout has colors.  The source writes next_vertex[offset..offset+4]; the
offsets are always in bounds for the fixed layout. -/
def color (r : MeshRenderer) (cr cg cb ca : ℚ) : MeshRenderer :=
  if r.mesh.attribs.has_colors then
    let off := r.mesh.get_vertex_offset .COLORS
    { r with next_vertex :=
        ((((r.next_vertex.set off cr).set (off + 1) cg).set (off + 2) cb).set (off + 3) ca) }
  else r

/-- MeshRenderer::normal. -/
def normal (r : MeshRenderer) (x y z : ℚ) : MeshRenderer :=
  if r.mesh.attribs.has_normals then
    let off := r.mesh.get_vertex_offset .NORMALS
    { r with next_vertex := (((r.next_vertex.set off x).set (off + 1) y).set (off + 2) z) }
  else r

/-- MeshRenderer::tex_coord. -/
def tex_coord (r : MeshRenderer) (u v : ℚ) : MeshRenderer :=
  if r.mesh.attribs.has_tex_coords then
    let off := r.mesh.get_vertex_offset .TEXCOORDS
    { r with next_vertex := ((r.next_vertex.set off u).set (off + 1) v) }
  else r

/-- MeshRenderer::vertex: writes the position into the scratch buffer,
appends it as a complete vertex, then resets the scratch buffer to
zeros. -/
def vertex (r : MeshRenderer) (x y z : ℚ) : Option MeshRenderer :=
  let nv := ((r.next_vertex.set 0 x).set 1 y).set 2 z
  match r.mesh.vertex nv with
  | none => none
  | some m2 => some { r with mesh := m2, next_vertex := List.replicate nv.length 0 }

/-- MeshRenderer::clear. -/
def clear (r : MeshRenderer) : MeshRenderer :=
  { r with mesh := r.mesh.clear,
           next_vertex := List.replicate r.next_vertex.length 0 }

end MeshRenderer

/-- One RGBA pixel: four u8 channels. -/
structure Pixel where
  r : Nat
  g : Nat
  b : Nat
  a : Nat
deriving DecidableEq, Repr

/-- A CPU-side RGBA image: a list of pixel rows, top row first. -/
abbrev Image := List (List Pixel)

/-- image::imageops::flip_vertical: reverses the row order. -/
def flipVertical (img : Image) : Image := img.reverse

/-- The width of an image (all rows of an RgbaImage have equal length). -/
def imageWidth (img : Image) : Nat := (img.head?.map List.length).getD 0

/-- The Rust expression (x as u8) applied to an f32 value: truncation
toward zero with saturation to the range 0..=255.  Truncation of the
rational q toward zero is the t-rounded quotient of its numerator by its
denominator. -/
def castU8 (q : ℚ) : Nat :=
  if q < 0 then 0 else if 255 < q then 255 else (q.num.tdiv q.den).toNat

/-- The per-pixel body of Texture::multiply: each channel converted to
f32, multiplied by its factor, cast back to u8. -/
def scalePixel (r g b a : ℚ) (p : Pixel) : Pixel :=
  { r := castU8 ((p.r : ℚ) * r),
    g := castU8 ((p.g : ℚ) * g),
    b := castU8 ((p.b : ℚ) * b),
    a := castU8 ((p.a : ℚ) * a) }

/-- Channel-wise scaling of a whole image. -/
def scaleImage (r g b a : ℚ) (img : Image) : Image :=
  img.map (List.map (scalePixel r g b a))

/-- Texture of src/graphics.rs: GL handle id, dimensions and the retained
CPU-side pixel buffer. -/
structure Texture where
  id : Nat
  width : Nat
  height : Nat
  original_image : Image
deriving DecidableEq, Repr

namespace Texture

/-- Texture::from_image: flips the decoded image vertically once,
retains the flipped copy, and uploads it to the GPU (gl_gen, external;
the fresh GL texture name it returns is the glId parameter). -/
def from_image (glId : Nat) (img : Image) : Texture :=
  let img := flipVertical img
  { id := glId,
    width := imageWidth img,
    height := img.length,
    original_image := img }

/-- Texture::multiply: clones the retained image, scales every pixel
channel-wise, and builds a new texture from it via from_image (glId is
the fresh GL name gl_gen assigns to the new texture). -/
def multiply (t : Texture) (glId : Nat) (r g b a : ℚ) : Texture :=
  from_image glId (scaleImage r g b a t.original_image)

end Texture

/-- A quadruple of quad arguments for one TextureRenderer::texture call:
screen rectangle and UV corners. -/
structure QuadArgs where
  x : ℚ
  y : ℚ
  w : ℚ
  h : ℚ
  u : ℚ
  v : ℚ
  u2 : ℚ
  v2 : ℚ
deriving DecidableEq, Repr

/-- TextureRenderer of src/graphics.rs, generic over the type M of the
combined transform it borrows for the session (the transform value is
only ever forwarded to the projModelView uniform).  draws is the ghost
trace of issued draw calls: the id of the texture bound for each, in
order. -/
structure TextureRenderer (M : Type) where
  shader : ShaderProgram
  mesh : Mesh
  next_vertex : List ℚ
  last_tex : Option Texture
  combined : Option M
  dirty : Bool
  draws : List Nat

namespace TextureRenderer

variable {M : Type}

/-- TextureRenderer::new: layout POSITION+COLOR+TEXCOORD (vertex_size 9),
scratch buffer of zeros, no session open. -/
def new (M : Type) : TextureRenderer M :=
  let mesh := Mesh.new (VertexAttributes.withFlags true true false true)
  { shader := ShaderProgram.newLinked,
    mesh,
    next_vertex := List.replicate mesh.attribs.vertex_size 0,
    last_tex := none,
    combined := none,
    dirty := false,
    draws := [] }

/-- TextureRenderer::begin: records the transform and enables blending
(external GL state). -/
def begin (r : TextureRenderer M) (combined : M) : TextureRenderer M :=
  { r with combined := some combined }

/-- TextureRenderer::flush: no-op when there is no current texture or no
open transform; otherwise binds the texture (external), sets the sampler
uniform (program state unchanged), issues one draw call through the mesh
against the session transform, clears the mesh and the dirty flag.  The
issued draw is recorded in the ghost trace with the bound texture id. -/
def flush (r : TextureRenderer M) : Option (TextureRenderer M) :=
  match r.last_tex, r.combined with
  | some t, some c =>
    match r.mesh.render GL_TRIANGLES c with
    | none => none
    | some (m2, _dc) =>
      some { r with mesh := m2.clear, dirty := false, draws := r.draws ++ [t.id] }
  | _, _ => some r

/-- TextureRenderer::end (renamed: end is a Lean keyword): flushes when
dirty, disables blending (external), closes the session. -/
def endBatch (r : TextureRenderer M) : Option (TextureRenderer M) :=
  match (if r.dirty then r.flush else some r) with
  | none => none
  | some r2 => some { r2 with combined := none, last_tex := none }

/-- TextureRenderer::tex_coord (the TextureRenderer copy). -/
def tex_coord (r : TextureRenderer M) (u v : ℚ) : TextureRenderer M :=
  if r.mesh.attribs.has_tex_coords then
    let off := r.mesh.get_vertex_offset .TEXCOORDS
    { r with next_vertex := ((r.next_vertex.set off u).set (off + 1) v) }
  else r

/-- TextureRenderer::color (the TextureRenderer copy). -/
def color (r : TextureRenderer M) (cr cg cb ca : ℚ) : TextureRenderer M :=
  if r.mesh.attribs.has_colors then
    let off := r.mesh.get_vertex_offset .COLORS
    { r with next_vertex :=
        ((((r.next_vertex.set off cr).set (off + 1) cg).set (off + 2) cb).set (off + 3) ca) }
  else r

/-- TextureRenderer::vertex (the TextureRenderer copy). -/
def vertex (r : TextureRenderer M) (x y z : ℚ) : Option (TextureRenderer M) :=
  let nv := ((r.next_vertex.set 0 x).set 1 y).set 2 z
  match r.mesh.vertex nv with
  | none => none
  | some m2 => some { r with mesh := m2, next_vertex := List.replicate nv.length 0 }

/-- The six vertex appends that form the tail of
TextureRenderer::texture, each staged as color, tex_coord, vertex
exactly as in the source. -/
def appendQuad (r : TextureRenderer M) (x y width height u v u2 v2 : ℚ) :
    Option (TextureRenderer M) :=
  let r := (r.color 1 1 1 1).tex_coord u v
  match r.vertex x y 0 with
  | none => none
  | some r =>
    let r := (r.color 1 1 1 1).tex_coord u v2
    match r.vertex x (y + height) 0 with
    | none => none
    | some r =>
      let r := (r.color 1 1 1 1).tex_coord u2 v2
      match r.vertex (x + width) (y + height) 0 with
      | none => none
      | some r =>
        let r := (r.color 1 1 1 1).tex_coord u2 v2
        match r.vertex (x + width) (y + height) 0 with
        | none => none
        | some r =>
          let r := (r.color 1 1 1 1).tex_coord u2 v
          match r.vertex (x + width) y 0 with
          | none => none
          | some r =>
            let r := (r.color 1 1 1 1).tex_coord u v
            r.vertex x y 0

/-- TextureRenderer::texture: adopts the texture when none is current;
flushes first when the current texture differs by id; marks the session
dirty; then appends the six quad vertices (appendQuad). -/
def texture (r : TextureRenderer M) (tex : Texture) (x y width height u v u2 v2 : ℚ) :
    Option (TextureRenderer M) :=
  let r := if r.last_tex.isNone then { r with last_tex := some tex } else r
  match (match r.last_tex with
         | some lt =>
           if lt.id ≠ tex.id then
             match r.flush with
             | none => none
             | some r2 => some { r2 with last_tex := some tex }
           else some r
         | none => some r) with
  | none => none
  | some r => appendQuad { r with dirty := true } x y width height u v u2 v2

/-- TextureRenderer::texture_xy: full texture at native size, full UV
range. -/
def texture_xy (r : TextureRenderer M) (tex : Texture) (x y : ℚ) :
    Option (TextureRenderer M) :=
  r.texture tex x y (tex.width : ℚ) (tex.height : ℚ) 0 0 1 1

/-- TextureRenderer::texture with the arguments bundled. -/
def textureQ (r : TextureRenderer M) (tex : Texture) (q : QuadArgs) :
    Option (TextureRenderer M) :=
  r.texture tex q.x q.y q.w q.h q.u q.v q.u2 q.v2

/-- A run of TextureRenderer::texture calls against one texture. -/
def runQuads (r : TextureRenderer M) (tex : Texture) :
    List QuadArgs → Option (TextureRenderer M)
  | [] => some r
  | q :: qs =>
    match textureQ r tex q with
    | none => none
    | some r2 => runQuads r2 tex qs

end TextureRenderer

/-
  Camera (src/camera.rs).  f32 camera math is modelled by the scalar type
  F: either NaN or an exact rational.  Arithmetic is exact (no rounding);
  NaN propagates through arithmetic and makes every comparison false,
  exactly as IEEE:
  - division by zero yields NaN here.  IEEE yields an infinity when the
    numerator is nonzero, but the model does not represent infinities: in
    this code a zero divisor only arises when normalizing a zero vector,
    where the components are 0 / 0 = NaN in IEEE too, and the positive
    claims below do not depend on any division by zero.
  - fsqrt is exact on rationals whose numerator and denominator are
    perfect squares (the only values the claims evaluate it at) and is
    some rational approximation elsewhere; negative values give NaN.
  - the trigonometric helpers (cosDeg, sinDeg, tanHalfDeg) are exact at
    quarter-turn angles, the only angles at which the true values are
    rational; no theorem below depends on their values at other angles.
  - f32 infinities are not representable in F, so the is_infinite tests
    of Camera::update are false in the model.
-/

/-- A finite f32 value (exact rational) or NaN. -/
inductive F where
  | nan : F
  | val (q : ℚ) : F
deriving DecidableEq, Repr

namespace F

instance : OfNat F n := ⟨F.val n⟩

def add : F → F → F
  | val a, val b => val (a + b)
  | _, _ => nan

def sub : F → F → F
  | val a, val b => val (a - b)
  | _, _ => nan

def mul : F → F → F
  | val a, val b => val (a * b)
  | _, _ => nan

def neg : F → F
  | val a => val (-a)
  | nan => nan

def div : F → F → F
  | val a, val b => if b = 0 then nan else val (a / b)
  | _, _ => nan

instance : Add F := ⟨F.add⟩
instance : Sub F := ⟨F.sub⟩
instance : Mul F := ⟨F.mul⟩
instance : Neg F := ⟨F.neg⟩
instance : Div F := ⟨F.div⟩

/-- Floor integer square root by bounded upward search (structural
recursion on the fuel, so that proofs can evaluate it). -/
def sqrtGo : Nat → Nat → Nat → Nat
  | 0, _, cand => cand
  | fuel + 1, n, cand =>
    if (cand + 1) * (cand + 1) ≤ n then sqrtGo fuel n (cand + 1) else cand

/-- Floor integer square root. -/
def natSqrt (n : Nat) : Nat := sqrtGo n n 0

/-- Exact square root for perfect-square rationals (see the block
comment above). -/
def ratSqrt (q : ℚ) : ℚ :=
  (natSqrt q.num.toNat : ℚ) / (natSqrt q.den : ℚ)

def sqrt : F → F
  | val a => if a < 0 then nan else val (ratSqrt a)
  | nan => nan

def abs : F → F
  | val a => val |a|
  | nan => nan

/-- IEEE ordering test: false whenever an operand is NaN. -/
def ltb : F → F → Bool
  | val a, val b => decide (a < b)
  | _, _ => false

/-- IEEE equality test: false whenever an operand is NaN. -/
def eqb : F → F → Bool
  | val a, val b => decide (a = b)
  | _, _ => false

/-- f32::is_infinite: infinities are not representable in F. -/
def isInfinite : F → Bool := fun _ => false

/-- f32 x > 0.0 comparison. -/
def gtZero : F → Bool
  | val a => decide (0 < a)
  | nan => false

end F

/-- cgmath Vector3 over F. -/
structure Vec3F where
  x : F
  y : F
  z : F
deriving DecidableEq, Repr

namespace Vec3F

def zero : Vec3F := ⟨0, 0, 0⟩

def add (a b : Vec3F) : Vec3F := ⟨a.x + b.x, a.y + b.y, a.z + b.z⟩

def sub (a b : Vec3F) : Vec3F := ⟨a.x - b.x, a.y - b.y, a.z - b.z⟩

def scale (a : Vec3F) (s : F) : Vec3F := ⟨a.x * s, a.y * s, a.z * s⟩

def dot (a b : Vec3F) : F := a.x * b.x + a.y * b.y + a.z * b.z

def cross (a b : Vec3F) : Vec3F :=
  ⟨a.y * b.z - a.z * b.y, a.z * b.x - a.x * b.z, a.x * b.y - a.y * b.x⟩

/-- cgmath InnerSpace::magnitude. -/
def magnitude (a : Vec3F) : F := F.sqrt (dot a a)

/-- cgmath InnerSpace::normalize: self * (1 / magnitude). -/
def normalize (a : Vec3F) : Vec3F := scale a ((1 : F) / magnitude a)

/-- cgmath PartialEq on Vector3: component-wise f32 equality tests. -/
def eqb (a b : Vec3F) : Bool :=
  F.eqb a.x b.x && F.eqb a.y b.y && F.eqb a.z b.z

end Vec3F

/-- cgmath Vector4 over F. -/
structure Vec4F where
  x : F
  y : F
  z : F
  w : F
deriving DecidableEq, Repr

/-- cgmath Matrix4 over F, stored as its four columns x, y, z, w. -/
structure Mat4F where
  x : Vec4F
  y : Vec4F
  z : Vec4F
  w : Vec4F
deriving DecidableEq, Repr

namespace Mat4F

def zero : Mat4F :=
  ⟨⟨0, 0, 0, 0⟩, ⟨0, 0, 0, 0⟩, ⟨0, 0, 0, 0⟩, ⟨0, 0, 0, 0⟩⟩

def identity : Mat4F :=
  ⟨⟨1, 0, 0, 0⟩, ⟨0, 1, 0, 0⟩, ⟨0, 0, 1, 0⟩, ⟨0, 0, 0, 1⟩⟩

/-- Matrix-vector product (column-major). -/
def mulVec (m : Mat4F) (v : Vec4F) : Vec4F :=
  ⟨m.x.x * v.x + m.y.x * v.y + m.z.x * v.z + m.w.x * v.w,
   m.x.y * v.x + m.y.y * v.y + m.z.y * v.z + m.w.y * v.w,
   m.x.z * v.x + m.y.z * v.y + m.z.z * v.z + m.w.z * v.w,
   m.x.w * v.x + m.y.w * v.y + m.z.w * v.z + m.w.w * v.w⟩

/-- cgmath Matrix4 multiplication: column j of a*b is a applied to
column j of b. -/
def mul (a b : Mat4F) : Mat4F :=
  ⟨a.mulVec b.x, a.mulVec b.y, a.mulVec b.z, a.mulVec b.w⟩

/-- cgmath is_identity: exact comparison with the identity, with f32
component equality semantics. -/
def isIdentityB (m : Mat4F) : Bool :=
  let ve := fun (a b : Vec4F) =>
    F.eqb a.x b.x && F.eqb a.y b.y && F.eqb a.z b.z && F.eqb a.w b.w
  ve m.x identity.x && ve m.y identity.y && ve m.z identity.z && ve m.w identity.w

/-- cgmath Matrix4::look_at_rh (via look_to_rh): right-handed look-at
basis from eye toward center with the given up vector. -/
def look_at_rh (eye center up : Vec3F) : Mat4F :=
  let f := (center.sub eye).normalize
  let s := (f.cross up).normalize
  let u := s.cross f
  ⟨⟨s.x, u.x, -f.x, 0⟩,
   ⟨s.y, u.y, -f.y, 0⟩,
   ⟨s.z, u.z, -f.z, 0⟩,
   ⟨-(eye.dot s), -(eye.dot u), eye.dot f, 1⟩⟩

end Mat4F

/-- Degree cosine, exact at quarter turns (see the F block comment). -/
def cosDeg (a : ℚ) : ℚ :=
  let r := a - 360 * ⌊a / 360⌋
  if r = 0 then 1 else if r = 90 then 0 else if r = 180 then -1
  else if r = 270 then 0 else 0

/-- Degree sine, exact at quarter turns (see the F block comment). -/
def sinDeg (a : ℚ) : ℚ :=
  let r := a - 360 * ⌊a / 360⌋
  if r = 0 then 0 else if r = 90 then 1 else if r = 180 then 0
  else if r = 270 then -1 else 0

/-- tan(Rad::from(Deg(fov)).0 * 0.5) of Camera::update, as a single
function of the angle in degrees; exact at fov = 90 (tan 45deg = 1), the
repository default (see the F block comment). -/
def tanHalfDeg : F → F
  | F.val q => if q - 360 * ⌊q / 360⌋ = 90 then F.val 1 else F.val 0
  | F.nan => F.nan

/-- Camera of src/camera.rs. -/
structure Camera where
  position : Vec3F
  direction : Vec3F
  up : Vec3F
  projection : Mat4F
  view : Mat4F
  combined : Mat4F
  viewport_width : F
  viewport_height : F
  near : F
  far : F
  fov : F
  aspect : F
  is_perspective : Bool
deriving DecidableEq, Repr

namespace Camera

/-- Camera::set_ortho: resets the matrix to the identity unless it
already is one, then writes the orthographic entries. -/
def set_ortho (mat : Mat4F) (left right bottom top z_near z_far : F) : Mat4F :=
  let m := if mat.isIdentityB then mat else Mat4F.identity
  { m with
    x := { m.x with x := (2 : F) / (right - left) },
    y := { m.y with y := (2 : F) / (top - bottom) },
    z := { m.z with z := (2 : F) / (z_near - z_far) },
    w := { m.w with
             x := (right + left) / (left - right),
             y := (top + bottom) / (bottom - top) } }

/-- Camera::update: recomputes aspect, projection (perspective or
orthographic), view (right-handed look-at toward position+direction) and
combined = projection * view. -/
def update (c : Camera) : Camera :=
  let aspect := c.viewport_width / c.viewport_height
  let projection :=
    if c.is_perspective then
      let h := tanHalfDeg c.fov
      let mat := Mat4F.zero
      let mat := { mat with
        x := { mat.x with x := (1 : F) / (h * aspect) },
        y := { mat.y with y := (1 : F) / h } }
      let far_inf := c.far.gtZero && c.far.isInfinite
      let near_inf := c.near.gtZero && c.near.isInfinite
      let mat :=
        if far_inf then
          { mat with
            z := { mat.z with z := F.val (1 / 1000000) - 1 },
            w := { mat.w with z := (F.val (1 / 1000000) - 2) * c.near } }
        else if near_inf then
          { mat with
            z := { mat.z with z := (1 : F) - F.val (1 / 1000000) },
            w := { mat.w with z := ((2 : F) - F.val (1 / 1000000)) * c.far } }
        else
          { mat with
            z := { mat.z with z := (c.far + c.near) / (c.near - c.far) },
            w := { mat.w with z := (c.far + c.far) * c.near / (c.near - c.far) } }
      { mat with z := { mat.z with w := -(1 : F) } }
    else
      set_ortho c.projection (-(c.viewport_width / (2 : F))) (c.viewport_width / (2 : F))
        (-(c.viewport_height / (2 : F))) (c.viewport_height / (2 : F)) c.near c.far
  let tmp := c.position.add c.direction
  let view := Mat4F.look_at_rh c.position tmp c.up
  { c with aspect, projection, view, combined := projection.mul view }

/-- Camera::new: orthographic defaults, then an initial update. -/
def new (x y z viewport_width viewport_height : F) : Camera :=
  let cam : Camera :=
    { position := ⟨x, y, z⟩,
      direction := ⟨0, 0, -(1 : F)⟩,
      up := ⟨0, 1, 0⟩,
      projection := Mat4F.zero,
      view := Mat4F.zero,
      combined := Mat4F.zero,
      viewport_width, viewport_height,
      near := -(1 : F),
      far := 1,
      fov := F.val 90,
      aspect := viewport_width / viewport_height,
      is_perspective := false }
  cam.update

/-- Camera::with_perspective: switches to perspective mode, then
updates. -/
def with_perspective (c : Camera) (near far : F) : Camera :=
  ({ c with near, far, is_perspective := true }).update

/-- Camera::normalize_up: re-derives up orthogonal to direction. -/
def normalize_up (c : Camera) : Camera :=
  let tmp := (c.direction.cross c.up).normalize
  { c with up := (tmp.cross c.direction).normalize }

/-- Camera::look_at: normalizes the vector from position to the target,
guards it against the zero vector (an IEEE == comparison), handles the
degenerate parallel-up case, sets the direction and re-orthonormalizes
up.  Note the source does not call update here. -/
def look_at (c : Camera) (x y z : F) : Camera :=
  let tmp := ((Vec3F.mk x y z).sub c.position).normalize
  if tmp.eqb Vec3F.zero then c
  else
    let dot := tmp.dot c.up
    let eps := F.val (1 / 1000000000)
    let c :=
      if F.ltb (F.abs (dot - (1 : F))) eps then
        { c with up := c.direction.scale (-(1 : F)) }
      else if F.ltb (F.abs (dot + (1 : F))) eps then
        { c with up := c.direction }
      else c
    ({ c with direction := tmp }).normalize_up

/-- The Rodrigues axis-angle rotation of a vector: equal, in exact
arithmetic, to the cgmath Basis3::from_axis_angle rotation used by
Camera::rotate. -/
def rodrigues (k : Vec3F) (c s : F) (v : Vec3F) : Vec3F :=
  ((v.scale c).add ((k.cross v).scale s)).add (k.scale (k.dot v * ((1 : F) - c)))

/-- Camera::rotate: rotates direction and up by the axis-angle rotation
(angle in degrees), then updates. -/
def rotate (cam : Camera) (angle : ℚ) (axis : Vec3F) : Camera :=
  let k := axis.normalize
  let c := F.val (cosDeg angle)
  let s := F.val (sinDeg angle)
  ({ cam with direction := rodrigues k c s cam.direction,
              up := rodrigues k c s cam.up }).update

/-- Camera::translate: adds to the position, then updates. -/
def translate (c : Camera) (x y z : F) : Camera :=
  ({ c with position := c.position.add ⟨x, y, z⟩ }).update

/-- The camera is up to date: its stored derived matrices equal the ones
recomputed from its current position, direction, up and projection
state. -/
def Recomputed (c : Camera) : Prop :=
  c.projection = c.update.projection ∧ c.view = c.update.view
    ∧ c.combined = c.update.combined

end Camera

/-
  Specification-side vocabulary used to state the claims.
-/

/-- The total component count of a VBO list. -/
def totalComps (vbos : List VertexBufferObject) : Nat :=
  (vbos.map (fun v => v.usage.offset)).sum

/-- The four vertex channels in their fixed layout order. -/
def chanList : List Usage := [.POSITIONS, .COLORS, .NORMALS, .TEXCOORDS]

/-- Specification of the attribute layout (claim C8): the stride is the
sum of the enabled component counts; an enabled channel offset is the
sum of the counts of the enabled channels before it; the enabled channel
intervals partition the stride with no gaps or overlaps; a disabled
channel gets the sentinel 0; INDEX is never enabled and never counted. -/
@[reducible] def layoutSpecOf (va : VertexAttributes) : Prop :=
  va.vertex_size = ((chanList.filter (fun u => va.usage u)).map Usage.offset).sum
  ∧ (∀ u ∈ chanList, va.usage u = true →
      va.offset u =
        (((chanList.takeWhile (fun u2 => u2 != u)).filter (fun u2 => va.usage u2)).map
            Usage.offset).sum)
  ∧ (∀ k ∈ List.range va.vertex_size,
      (chanList.filter (fun u =>
          va.usage u && decide (va.offset u ≤ k) && decide (k < va.offset u + u.offset))).length
        = 1)
  ∧ (∀ u ∈ chanList, va.usage u = false → va.offset u = 0)
  ∧ va.usage .INDICES = false ∧ va.offset .INDICES = 0

@[reducible] def layoutSpec (hp hc hn ht : Bool) : Prop :=
  layoutSpecOf (VertexAttributes.withFlags hp hc hn ht)

/-- The six vertex positions TextureRenderer::texture emits for one
quad, flattened (x, y, z per vertex). -/
def quadPositions (x y w h : ℚ) : List ℚ :=
  [x, y, 0, x, y + h, 0, x + w, y + h, 0, x + w, y + h, 0, x + w, y, 0, x, y, 0]

/-- The six full-opacity white tints of one quad, flattened. -/
def quadColors : List ℚ :=
  [1, 1, 1, 1, 1, 1, 1, 1, 1, 1, 1, 1, 1, 1, 1, 1, 1, 1, 1, 1, 1, 1, 1, 1]

/-- The six UV corners of one quad, flattened. -/
def quadTexCoords (u v u2 v2 : ℚ) : List ℚ :=
  [u, v, u, v2, u2, v2, u2, v2, u2, v, u, v]

/-- One call against the public MeshRenderer interface. -/
inductive MROp where
  | colorOp (r g b a : ℚ)
  | normalOp (x y z : ℚ)
  | texCoordOp (u v : ℚ)
  | vertexOp (x y z : ℚ)
  | clearOp
  | renderOp (primitive : Nat)

/-- Apply one MeshRenderer call (none models a panic). -/
def MROp.apply (r : MeshRenderer) : MROp → Option MeshRenderer
  | .colorOp a b c d => some (r.color a b c d)
  | .normalOp x y z => some (r.normal x y z)
  | .texCoordOp u v => some (r.tex_coord u v)
  | .vertexOp x y z => r.vertex x y z
  | .clearOp => some r.clear
  | .renderOp p => (r.render () p).map Prod.fst

/-- Run a sequence of MeshRenderer calls. -/
def runMR : MeshRenderer → List MROp → Option MeshRenderer
  | r, [] => some r
  | r, op :: ops =>
    match op.apply r with
    | none => none
    | some r2 => runMR r2 ops

/-- How one MeshRenderer call changes the number of complete vertices
accumulated since the last clear. -/
def mrStep (n : Nat) : MROp → Nat
  | .vertexOp _ _ _ => n + 1
  | .clearOp => 0
  | _ => n

/-- The number of complete vertices accumulated since the last clear
after a MeshRenderer call sequence, starting from n. -/
def mrCount : Nat → List MROp → Nat
  | n, [] => n
  | n, op :: ops => mrCount (mrStep n op) ops

/-- One call against the public TextureRenderer interface. -/
inductive TROp (M : Type) where
  | beginOp (m : M)
  | textureOp (tex : Texture) (q : QuadArgs)
  | textureXYOp (tex : Texture) (x y : ℚ)
  | vertexOp (x y z : ℚ)
  | colorOp (r g b a : ℚ)
  | texCoordOp (u v : ℚ)
  | flushOp
  | endOp

/-- Apply one TextureRenderer call (none models a panic). -/
def TROp.apply {M : Type} (r : TextureRenderer M) : TROp M → Option (TextureRenderer M)
  | .beginOp m => some (r.begin m)
  | .textureOp tex q => r.textureQ tex q
  | .textureXYOp tex x y => r.texture_xy tex x y
  | .vertexOp x y z => r.vertex x y z
  | .colorOp a b c d => some (r.color a b c d)
  | .texCoordOp u v => some (r.tex_coord u v)
  | .flushOp => r.flush
  | .endOp => r.endBatch

/-- Run a sequence of TextureRenderer calls. -/
def runTR {M : Type} : TextureRenderer M → List (TROp M) → Option (TextureRenderer M)
  | r, [] => some r
  | r, op :: ops =>
    match op.apply r with
    | none => none
    | some r2 => runTR r2 ops

/-- One call against the public Mesh interface that touches the vertex
buffers. -/
inductive MeshOp where
  | vertexOp (data : List ℚ)
  | clearOp

/-- Run a sequence of Mesh calls (none models a panic). -/
def runMesh : Mesh → List MeshOp → Option Mesh
  | m, [] => some m
  | m, .vertexOp data :: ops =>
    match m.vertex data with
    | none => none
    | some m2 => runMesh m2 ops
  | m, .clearOp :: ops => runMesh m.clear ops

/-- An open TextureRenderer session mid-run: the given texture is
current, the transform is recorded, unflushed geometry exists, and the
renderer state is well formed (nine-float scratch buffer, the
POSITION+COLOR+TEXCOORD channel VBOs). -/
def SessionReady {M : Type} (m : M) (tex : Texture) (r : TextureRenderer M) : Prop :=
  r.last_tex = some tex ∧ r.combined = some m ∧ r.dirty = true
    ∧ r.next_vertex.length = 9
    ∧ r.mesh.attribs.has_colors = true ∧ r.mesh.attribs.has_tex_coords = true
    ∧ ∃ vp vc vt, r.mesh.vao.vbos = [vp, vc, vt]
        ∧ vp.usage = .POSITIONS ∧ vc.usage = .COLORS ∧ vt.usage = .TEXCOORDS

/-- Well-formedness of a reachable MeshRenderer state holding k complete
vertices: both channel buffers hold k vertices worth of floats, the
scratch buffer has stride length, the index buffer is empty. -/
def MRInv (k : Nat) (r : MeshRenderer) : Prop :=
  (∃ vp vc, r.mesh.vao.vbos = [vp, vc]
      ∧ vp.usage = .POSITIONS ∧ vc.usage = .COLORS
      ∧ vp.data.length = 3 * k ∧ vc.data.length = 4 * k)
    ∧ r.next_vertex.length = 7
    ∧ r.mesh.vao.vbo_indices.data = []

/-- Well-formedness of a reachable TextureRenderer state holding n
complete vertices. -/
def TRInv {M : Type} (n : Nat) (r : TextureRenderer M) : Prop :=
  (∃ vp vc vt, r.mesh.vao.vbos = [vp, vc, vt]
      ∧ vp.usage = .POSITIONS ∧ vc.usage = .COLORS ∧ vt.usage = .TEXCOORDS
      ∧ vp.data.length = 3 * n ∧ vc.data.length = 4 * n ∧ vt.data.length = 2 * n)
    ∧ r.next_vertex.length = 9
    ∧ r.mesh.attribs.has_colors = true ∧ r.mesh.attribs.has_tex_coords = true
    ∧ r.mesh.vao.vbo_indices.data = []

/-
  Theorems.
-/

/-- A list of length nine is a nine-element literal. -/
lemma exists_nine (l : List ℚ) (hlen : l.length = 9) :
    ∃ a0 a1 a2 a3 a4 a5 a6 a7 a8, l = [a0, a1, a2, a3, a4, a5, a6, a7, a8] := by
  rcases l with _ | ⟨a0, l⟩
  · simp at hlen
  rcases l with _ | ⟨a1, l⟩
  · simp at hlen
  rcases l with _ | ⟨a2, l⟩
  · simp at hlen
  rcases l with _ | ⟨a3, l⟩
  · simp at hlen
  rcases l with _ | ⟨a4, l⟩
  · simp at hlen
  rcases l with _ | ⟨a5, l⟩
  · simp at hlen
  rcases l with _ | ⟨a6, l⟩
  · simp at hlen
  rcases l with _ | ⟨a7, l⟩
  · simp at hlen
  rcases l with _ | ⟨a8, l⟩
  · simp at hlen
  rcases l with _ | ⟨a9, l⟩
  · exact ⟨a0, a1, a2, a3, a4, a5, a6, a7, a8, rfl⟩
  · simp at hlen

/-- Every channel has a positive component count. -/
lemma usage_offset_pos (u : Usage) : 0 < u.offset := by
  cases u <;> decide

/-- The inner append loop panics exactly when it runs off the end of the
input slice. -/
lemma addLoop_eq_none_iff (data : List ℚ) :
    ∀ (k : Nat) (v : VertexBufferObject) (start : Nat),
      VertexArrayObject.addLoop v data start k = none
        ↔ data.length < start + k ∧ 0 < k := by
  intro k
  induction k with
  | zero =>
    intro v start
    simp [VertexArrayObject.addLoop]
  | succ k ih =>
    intro v start
    rw [VertexArrayObject.addLoop]
    cases h : data[start]? with
    | none =>
      have hlen : data.length ≤ start := by
        by_contra hlt
        push_neg at hlt
        rw [List.getElem?_eq_getElem hlt] at h
        cases h
      simp only [true_iff]
      omega
    | some x =>
      have hstart : start < data.length := by
        by_contra hge
        push_neg at hge
        rw [List.getElem?_eq_none hge] at h
        cases h
      rw [ih]
      omega

/-- The outer vertex loop panics exactly when the slice is shorter than
the remaining components. -/
lemma vloop_eq_none_iff :
    ∀ (vbos : List VertexBufferObject) (data : List ℚ) (off : Nat),
      VertexArrayObject.vloop vbos data off = none
        ↔ data.length < off + totalComps vbos ∧ 0 < totalComps vbos := by
  intro vbos
  induction vbos with
  | nil =>
    intro data off
    simp [VertexArrayObject.vloop, totalComps]
  | cons v rest ih =>
    intro data off
    have hcomp : 0 < v.usage.offset := usage_offset_pos v.usage
    have htot : totalComps (v :: rest) = v.usage.offset + totalComps rest := rfl
    rw [VertexArrayObject.vloop]
    cases h1 : VertexArrayObject.addLoop v data off v.usage.offset with
    | none =>
      have := (addLoop_eq_none_iff data _ v off).mp h1
      simp only [true_iff]
      omega
    | some v2 =>
      have h1n := (addLoop_eq_none_iff data _ v off).not.mp
        (by intro hc; rw [h1] at hc; exact Option.noConfusion hc)
      cases h2 : VertexArrayObject.vloop rest data (off + v.usage.offset) with
      | none =>
        have := (ih data (off + v.usage.offset)).mp h2
        simp only [true_iff]
        omega
      | some r2 =>
        have h2n := (ih data (off + v.usage.offset)).not.mp
          (by intro hc; rw [h2] at hc; exact Option.noConfusion hc)
        simp only [reduceCtorEq, false_iff]
        omega

/-- VertexArrayObject::vertex panics exactly when the slice is shorter
than the total component count. -/
lemma vao_vertex_eq_none_iff (vao : VertexArrayObject) (data : List ℚ) :
    vao.vertex data = none ↔ data.length < totalComps vao.vbos := by
  unfold VertexArrayObject.vertex
  cases h : VertexArrayObject.vloop vao.vbos data 0 with
  | none =>
    have := (vloop_eq_none_iff vao.vbos data 0).mp h
    simp only [Option.map_none', true_iff]
    omega
  | some vs =>
    have hn := (vloop_eq_none_iff vao.vbos data 0).not.mp
      (by intro hc; rw [h] at hc; exact Option.noConfusion hc)
    simp only [Option.map_some', reduceCtorEq, false_iff]
    intro hlt
    exact hn ⟨by omega, by omega⟩

/-- For layouts built by VertexAttributes::with, the VBO component total
equals the stride. -/
lemma totalComps_new (hp hc hn ht : Bool) :
    totalComps (VertexArrayObject.new (VertexAttributes.withFlags hp hc hn ht)).vbos
      = (VertexAttributes.withFlags hp hc hn ht).vertex_size := by
  cases hp <;> cases hc <;> cases hn <;> cases ht <;> decide

/-- A true IEEE equality test means the values are equal. -/
lemma F.eqb_eq_true {a b : F} (h : F.eqb a b = true) : a = b := by
  cases a <;> cases b <;> simp_all [F.eqb]

/-- A matrix that passes the is_identity test is the identity. -/
lemma Mat4F.isIdentityB_eq {m : Mat4F} (h : m.isIdentityB = true) : m = Mat4F.identity := by
  obtain ⟨⟨xx, xy, xz, xw⟩, ⟨yx, yy, yz, yw⟩, ⟨zx, zy, zz, zw⟩, ⟨wx, wy, wz, ww⟩⟩ := m
  simp only [Mat4F.isIdentityB, Mat4F.identity, Bool.and_eq_true] at h
  obtain ⟨⟨⟨⟨⟨⟨e1, e2⟩, e3⟩, e4⟩, ⟨⟨⟨e5, e6⟩, e7⟩, e8⟩⟩, ⟨⟨⟨e9, e10⟩, e11⟩, e12⟩⟩,
    ⟨⟨⟨e13, e14⟩, e15⟩, e16⟩⟩ := h
  rw [F.eqb_eq_true e1, F.eqb_eq_true e2, F.eqb_eq_true e3, F.eqb_eq_true e4,
    F.eqb_eq_true e5, F.eqb_eq_true e6, F.eqb_eq_true e7, F.eqb_eq_true e8,
    F.eqb_eq_true e9, F.eqb_eq_true e10, F.eqb_eq_true e11, F.eqb_eq_true e12,
    F.eqb_eq_true e13, F.eqb_eq_true e14, F.eqb_eq_true e15, F.eqb_eq_true e16]
  rfl

/-- The identity matrix passes the is_identity test. -/
lemma identity_isIdentityB : Mat4F.identity.isIdentityB = true := by decide

/-- set_ortho does not depend on its base matrix: the base is the
identity whether or not the incoming matrix already was one. -/
lemma set_ortho_base (m : Mat4F) (l r b t zn zf : F) :
    Camera.set_ortho m l r b t zn zf = Camera.set_ortho Mat4F.identity l r b t zn zf := by
  by_cases h : m.isIdentityB = true
  · rw [Mat4F.isIdentityB_eq h]
  · have hb : m.isIdentityB = false := by
      revert h
      cases m.isIdentityB <;> simp
    unfold Camera.set_ortho
    rw [hb, identity_isIdentityB]
    rfl

/-- The combined matrix written by update is the product of the
projection and view it writes. -/
lemma update_combined_eq (c : Camera) :
    c.update.combined = c.update.projection.mul c.update.view := rfl

/-- Updating twice writes the same projection as updating once. -/
lemma update_update_projection (c : Camera) :
    c.update.update.projection = c.update.projection := by
  cases hp : c.is_perspective with
  | true =>
    show (if c.is_perspective = true then _ else _) = (if c.is_perspective = true then _ else _)
    rw [hp]
    rfl
  | false =>
    show (if c.is_perspective = true then _ else _) = (if c.is_perspective = true then _ else _)
    rw [hp]
    simp only [Bool.false_eq_true, if_false]
    exact (set_ortho_base _ _ _ _ _ _ _).trans (set_ortho_base _ _ _ _ _ _ _).symm

/-- Updating twice writes the same view as updating once. -/
lemma update_update_view (c : Camera) :
    c.update.update.view = c.update.view := rfl

/-- Every camera produced by update is up to date. -/
lemma update_Recomputed (c : Camera) : c.update.Recomputed := by
  refine ⟨(update_update_projection c).symm, (update_update_view c).symm, ?_⟩
  rw [update_combined_eq c.update, update_update_projection, update_update_view,
    update_combined_eq c]

/-- look_at leaves the projection, view and combined matrices exactly as
they were. -/
lemma look_at_stale (c : Camera) (x y z : F) :
    (c.look_at x y z).projection = c.projection
      ∧ (c.look_at x y z).view = c.view
      ∧ (c.look_at x y z).combined = c.combined := by
  unfold Camera.look_at Camera.normalize_up
  dsimp only
  split
  · exact ⟨rfl, rfl, rfl⟩
  · split
    · exact ⟨rfl, rfl, rfl⟩
    · split
      · exact ⟨rfl, rfl, rfl⟩
      · exact ⟨rfl, rfl, rfl⟩

/-- TextureRenderer::color stages the tint into slots 3..6 of the
scratch buffer for the POSITION+COLOR+TEXCOORD layout. -/
lemma tr_color_eq {M : Type} (r : TextureRenderer M) (vp vc vt : VertexBufferObject)
    (cr cg cb ca a0 a1 a2 a3 a4 a5 a6 a7 a8 : ℚ)
    (hv : r.mesh.vao.vbos = [vp, vc, vt])
    (hp : vp.usage = .POSITIONS) (hc : vc.usage = .COLORS)
    (hcc : r.mesh.attribs.has_colors = true)
    (hn : r.next_vertex = [a0, a1, a2, a3, a4, a5, a6, a7, a8]) :
    r.color cr cg cb ca = { r with next_vertex := [a0, a1, a2, cr, cg, cb, ca, a7, a8] } := by
  unfold TextureRenderer.color Mesh.get_vertex_offset VertexArrayObject.get_vertex_offset
  rw [hcc, hv, hn]
  simp [VertexArrayObject.get_vertex_offset.go, hp, hc, Usage.offset]

/-- TextureRenderer::tex_coord stages the UV pair into slots 7..8 of the
scratch buffer for the POSITION+COLOR+TEXCOORD layout. -/
lemma tr_texcoord_eq {M : Type} (r : TextureRenderer M) (vp vc vt : VertexBufferObject)
    (u v a0 a1 a2 a3 a4 a5 a6 a7 a8 : ℚ)
    (hv : r.mesh.vao.vbos = [vp, vc, vt])
    (hp : vp.usage = .POSITIONS) (hc : vc.usage = .COLORS) (ht : vt.usage = .TEXCOORDS)
    (htc : r.mesh.attribs.has_tex_coords = true)
    (hn : r.next_vertex = [a0, a1, a2, a3, a4, a5, a6, a7, a8]) :
    r.tex_coord u v = { r with next_vertex := [a0, a1, a2, a3, a4, a5, a6, u, v] } := by
  unfold TextureRenderer.tex_coord Mesh.get_vertex_offset VertexArrayObject.get_vertex_offset
  rw [htc, hv, hn]
  simp [VertexArrayObject.get_vertex_offset.go, hp, hc, ht, Usage.offset]

/-- TextureRenderer::vertex completes one vertex: the position goes into
slots 0..2, the scratch buffer is de-interleaved into the three channel
VBOs, then reset to zeros. -/
lemma tr_vertex_eq {M : Type} (r : TextureRenderer M) (vp vc vt : VertexBufferObject)
    (x y z a0 a1 a2 a3 a4 a5 a6 a7 a8 : ℚ)
    (hv : r.mesh.vao.vbos = [vp, vc, vt])
    (hp : vp.usage = .POSITIONS) (hc : vc.usage = .COLORS) (ht : vt.usage = .TEXCOORDS)
    (hn : r.next_vertex = [a0, a1, a2, a3, a4, a5, a6, a7, a8]) :
    r.vertex x y z = some { r with
      mesh := { r.mesh with vao := { r.mesh.vao with vbos := [
        { vp with data := vp.data ++ [x, y, z], offset := vp.offset + 3, dirty := true },
        { vc with data := vc.data ++ [a3, a4, a5, a6], offset := vc.offset + 4, dirty := true },
        { vt with data := vt.data ++ [a7, a8], offset := vt.offset + 2, dirty := true } ] } },
      next_vertex := List.replicate 9 0 } := by
  unfold TextureRenderer.vertex Mesh.vertex VertexArrayObject.vertex
  rw [hn, hv]
  simp [VertexArrayObject.vloop, VertexArrayObject.addLoop, VertexBufferObject.add_data,
    hp, hc, ht, Usage.offset, List.append_assoc]

/-- The six vertex appends of TextureRenderer::texture, evaluated: each
channel VBO grows by exactly six vertices worth of floats carrying the
quad corners, the white tint and the UV corners, and the scratch buffer
ends reset to zeros. -/
lemma appendQuad_eq {M : Type} (r : TextureRenderer M) (vp vc vt : VertexBufferObject)
    (x y w h u v u2 v2 : ℚ)
    (hv : r.mesh.vao.vbos = [vp, vc, vt])
    (hp : vp.usage = .POSITIONS) (hc : vc.usage = .COLORS) (ht : vt.usage = .TEXCOORDS)
    (hcc : r.mesh.attribs.has_colors = true) (htc : r.mesh.attribs.has_tex_coords = true)
    (hn : r.next_vertex.length = 9) :
    TextureRenderer.appendQuad r x y w h u v u2 v2 = some { r with
      mesh := { r.mesh with vao := { r.mesh.vao with vbos := [
        { vp with data := vp.data ++ quadPositions x y w h, offset := vp.offset + 18,
                  dirty := true },
        { vc with data := vc.data ++ quadColors, offset := vc.offset + 24, dirty := true },
        { vt with data := vt.data ++ quadTexCoords u v u2 v2, offset := vt.offset + 12,
                  dirty := true } ] } },
      next_vertex := List.replicate 9 0 } := by
  obtain ⟨a0, a1, a2, a3, a4, a5, a6, a7, a8, hnine⟩ := exists_nine r.next_vertex hn
  obtain ⟨sh, ⟨⟨vbos0, vbi, bnd⟩, ⟨vsz, fpos, fcol, fnorm, ftex⟩⟩, nv, ltx, cmb, dty, dws⟩ := r
  dsimp only at hv hcc htc hnine
  subst hv hcc htc hnine
  obtain ⟨pu, pd, po, pb⟩ := vp
  obtain ⟨cu, cd, co, cb2⟩ := vc
  obtain ⟨tu, td, tto, tb⟩ := vt
  dsimp only at hp hc ht
  subst hp hc ht
  simp [TextureRenderer.appendQuad, TextureRenderer.color, TextureRenderer.tex_coord,
    TextureRenderer.vertex, Mesh.vertex, Mesh.get_vertex_offset,
    VertexArrayObject.get_vertex_offset, VertexArrayObject.get_vertex_offset.go,
    VertexArrayObject.vertex, VertexArrayObject.vloop, VertexArrayObject.addLoop,
    VertexBufferObject.add_data, Usage.offset, quadPositions, quadColors, quadTexCoords,
    List.append_assoc, List.replicate]

/-- TextureRenderer::flush with a current texture and an open transform:
one draw call is issued against the current texture (recorded in the
ghost trace), the mesh is cleared and the dirty flag falls. -/
lemma flush_eq {M : Type} (r : TextureRenderer M) (lt : Texture) (m : M)
    (vp vc vt : VertexBufferObject)
    (hl : r.last_tex = some lt) (hcm : r.combined = some m)
    (hv : r.mesh.vao.vbos = [vp, vc, vt]) :
    r.flush = some { r with
      mesh := { r.mesh with vao := { r.mesh.vao with
        vbos := [vp.clear, vc.clear, vt.clear],
        vbo_indices := r.mesh.vao.vbo_indices.clear,
        bound := false } },
      dirty := false,
      draws := r.draws ++ [lt.id] } := by
  obtain ⟨sh, ⟨⟨vbos0, vbi, bnd⟩, attribs⟩, nv, ltx, cmb, dty, dws⟩ := r
  dsimp only at hl hcm hv
  subst hl hcm hv
  obtain ⟨iu, idta, iofs, idrt⟩ := vbi
  cases iofs with
  | zero => rfl
  | succ k =>
    simp [TextureRenderer.flush, Mesh.render, VertexArrayObject.bind, VertexBufferObject.bind,
      VertexArrayObject.render, VertexArrayObject.unbind, Mesh.clear, VertexArrayObject.clear,
      VertexBufferObject.clear]

/-- TextureRenderer::end on a dirty session: flushes (one draw against
the current texture), then closes the session. -/
lemma endBatch_eq {M : Type} (r : TextureRenderer M) (lt : Texture) (m : M)
    (vp vc vt : VertexBufferObject)
    (hl : r.last_tex = some lt) (hcm : r.combined = some m)
    (hv : r.mesh.vao.vbos = [vp, vc, vt]) (hd : r.dirty = true) :
    r.endBatch = some { r with
      mesh := { r.mesh with vao := { r.mesh.vao with
        vbos := [vp.clear, vc.clear, vt.clear],
        vbo_indices := r.mesh.vao.vbo_indices.clear,
        bound := false } },
      dirty := false,
      draws := r.draws ++ [lt.id],
      combined := none,
      last_tex := none } := by
  unfold TextureRenderer.endBatch
  rw [hd, flush_eq r lt m vp vc vt hl hcm hv]
  rfl

/-- TextureRenderer::texture, first call of a session (no current
texture): adopts the texture, no flush, appends the quad. -/
lemma texture_first {M : Type} (r : TextureRenderer M) (tex : Texture)
    (vp vc vt : VertexBufferObject) (x y w h u v u2 v2 : ℚ)
    (hl : r.last_tex = none)
    (hv : r.mesh.vao.vbos = [vp, vc, vt])
    (hp : vp.usage = .POSITIONS) (hc : vc.usage = .COLORS) (ht : vt.usage = .TEXCOORDS)
    (hcc : r.mesh.attribs.has_colors = true) (htc : r.mesh.attribs.has_tex_coords = true)
    (hn : r.next_vertex.length = 9) :
    r.texture tex x y w h u v u2 v2 = some { r with
      mesh := { r.mesh with vao := { r.mesh.vao with vbos := [
        { vp with data := vp.data ++ quadPositions x y w h, offset := vp.offset + 18,
                  dirty := true },
        { vc with data := vc.data ++ quadColors, offset := vc.offset + 24, dirty := true },
        { vt with data := vt.data ++ quadTexCoords u v u2 v2, offset := vt.offset + 12,
                  dirty := true } ] } },
      next_vertex := List.replicate 9 0,
      last_tex := some tex,
      dirty := true } := by
  unfold TextureRenderer.texture
  rw [hl]
  dsimp only [Option.isNone]
  rw [if_pos rfl]
  dsimp only
  rw [if_neg (by simp)]
  dsimp only
  rw [appendQuad_eq { r with last_tex := some tex, dirty := true } vp vc vt x y w h u v u2 v2
    hv hp hc ht hcc htc hn]

/-- TextureRenderer::texture when the incoming texture has the id of the
current one: no flush, the quad is appended to the accumulated mesh. -/
lemma texture_same {M : Type} (r : TextureRenderer M) (lt0 tex : Texture)
    (vp vc vt : VertexBufferObject) (x y w h u v u2 v2 : ℚ)
    (hl : r.last_tex = some lt0) (hid : lt0.id = tex.id)
    (hv : r.mesh.vao.vbos = [vp, vc, vt])
    (hp : vp.usage = .POSITIONS) (hc : vc.usage = .COLORS) (ht : vt.usage = .TEXCOORDS)
    (hcc : r.mesh.attribs.has_colors = true) (htc : r.mesh.attribs.has_tex_coords = true)
    (hn : r.next_vertex.length = 9) :
    r.texture tex x y w h u v u2 v2 = some { r with
      mesh := { r.mesh with vao := { r.mesh.vao with vbos := [
        { vp with data := vp.data ++ quadPositions x y w h, offset := vp.offset + 18,
                  dirty := true },
        { vc with data := vc.data ++ quadColors, offset := vc.offset + 24, dirty := true },
        { vt with data := vt.data ++ quadTexCoords u v u2 v2, offset := vt.offset + 12,
                  dirty := true } ] } },
      next_vertex := List.replicate 9 0,
      dirty := true } := by
  unfold TextureRenderer.texture
  rw [hl]
  dsimp only [Option.isNone]
  rw [if_neg (by simp)]
  rw [hl]
  dsimp only
  rw [if_neg (by simp [hid])]
  dsimp only
  rw [appendQuad_eq { r with dirty := true } vp vc vt x y w h u v u2 v2
    hv hp hc ht hcc htc hn]
  rw [hl]

/-- TextureRenderer::texture on a texture switch with an open transform:
flushes the accumulated geometry against the previous texture (one
recorded draw), adopts the new texture, then appends the quad to the
now-empty mesh. -/
lemma texture_switch {M : Type} (r : TextureRenderer M) (lt0 tex : Texture) (m : M)
    (vp vc vt : VertexBufferObject) (x y w h u v u2 v2 : ℚ)
    (hl : r.last_tex = some lt0) (hcm : r.combined = some m) (hid : lt0.id ≠ tex.id)
    (hv : r.mesh.vao.vbos = [vp, vc, vt])
    (hp : vp.usage = .POSITIONS) (hc : vc.usage = .COLORS) (ht : vt.usage = .TEXCOORDS)
    (hcc : r.mesh.attribs.has_colors = true) (htc : r.mesh.attribs.has_tex_coords = true)
    (hn : r.next_vertex.length = 9) :
    r.texture tex x y w h u v u2 v2 = some { r with
      mesh := { r.mesh with vao := { r.mesh.vao with
        vbos := [
          { vp with data := quadPositions x y w h, offset := 18, dirty := true },
          { vc with data := quadColors, offset := 24, dirty := true },
          { vt with data := quadTexCoords u v u2 v2, offset := 12, dirty := true } ],
        vbo_indices := r.mesh.vao.vbo_indices.clear,
        bound := false } },
      next_vertex := List.replicate 9 0,
      last_tex := some tex,
      combined := some m,
      dirty := true,
      draws := r.draws ++ [lt0.id] } := by
  unfold TextureRenderer.texture
  rw [hl]
  dsimp only [Option.isNone]
  rw [if_neg (by simp)]
  rw [hl]
  dsimp only
  rw [if_pos hid]
  rw [flush_eq r lt0 m vp vc vt hl hcm hv]
  dsimp only
  rw [appendQuad_eq
    { r with
      mesh := { r.mesh with vao := { r.mesh.vao with
        vbos := [vp.clear, vc.clear, vt.clear],
        vbo_indices := r.mesh.vao.vbo_indices.clear,
        bound := false } },
      last_tex := some tex,
      dirty := true,
      draws := r.draws ++ [lt0.id] }
    vp.clear vc.clear vt.clear x y w h u v u2 v2 rfl hp hc ht hcc htc hn]
  rw [hcm]
  rfl

/-- TextureRenderer::texture on a texture switch with no open transform
(no begin): flush is a no-op, the new texture is adopted and the quad is
appended to the accumulated mesh. -/
lemma texture_switch_noTransform {M : Type} (r : TextureRenderer M) (lt0 tex : Texture)
    (vp vc vt : VertexBufferObject) (x y w h u v u2 v2 : ℚ)
    (hl : r.last_tex = some lt0) (hcm : r.combined = none) (hid : lt0.id ≠ tex.id)
    (hv : r.mesh.vao.vbos = [vp, vc, vt])
    (hp : vp.usage = .POSITIONS) (hc : vc.usage = .COLORS) (ht : vt.usage = .TEXCOORDS)
    (hcc : r.mesh.attribs.has_colors = true) (htc : r.mesh.attribs.has_tex_coords = true)
    (hn : r.next_vertex.length = 9) :
    r.texture tex x y w h u v u2 v2 = some { r with
      mesh := { r.mesh with vao := { r.mesh.vao with vbos := [
        { vp with data := vp.data ++ quadPositions x y w h, offset := vp.offset + 18,
                  dirty := true },
        { vc with data := vc.data ++ quadColors, offset := vc.offset + 24, dirty := true },
        { vt with data := vt.data ++ quadTexCoords u v u2 v2, offset := vt.offset + 12,
                  dirty := true } ] } },
      next_vertex := List.replicate 9 0,
      last_tex := some tex,
      dirty := true } := by
  unfold TextureRenderer.texture
  rw [hl]
  dsimp only [Option.isNone]
  rw [if_neg (by simp)]
  rw [hl]
  dsimp only
  rw [if_pos hid]
  have hfl : r.flush = some r := by
    unfold TextureRenderer.flush
    rw [hl, hcm]
  rw [hfl]
  dsimp only
  rw [appendQuad_eq { r with last_tex := some tex, dirty := true } vp vc vt x y w h u v u2 v2
    hv hp hc ht hcc htc hn]

/-- Claim C2: every texture(tex, x, y, width, height, u, v, u2, v2) call
appends exactly six vertices to the mesh: positions
(x,y),(x,y+h),(x+w,y+h),(x+w,y+h),(x+w,y),(x,y) with z = 0, each with
color (1,1,1,1) and texture coordinates
(u,v),(u,v2),(u2,v2),(u2,v2),(u2,v),(u,v).  The six vertices land after
the accumulated channel data, which is either untouched or, when the
call switched textures with an open transform and therefore flushed
first, empty. -/
theorem claim_C2 :
    ∀ (M : Type) (r : TextureRenderer M) (tex : Texture) (x y w h u v u2 v2 : ℚ)
      (vp vc vt : VertexBufferObject),
      r.mesh.vao.vbos = [vp, vc, vt] →
      vp.usage = .POSITIONS → vc.usage = .COLORS → vt.usage = .TEXCOORDS →
      r.mesh.attribs.has_colors = true → r.mesh.attribs.has_tex_coords = true →
      r.next_vertex.length = 9 →
      ∃ r2 p c t, r.texture tex x y w h u v u2 v2 = some r2
        ∧ r2.mesh.vao.vbos.map (fun b => b.data)
            = [p ++ quadPositions x y w h,
               c ++ quadColors,
               t ++ quadTexCoords u v u2 v2]
        ∧ ((p = vp.data ∧ c = vc.data ∧ t = vt.data) ∨ (p = [] ∧ c = [] ∧ t = [])) := by
  intro M r tex x y w h u v u2 v2 vp vc vt hv hp hc ht hcc htc hn
  cases hl : r.last_tex with
  | none =>
    exact ⟨_, vp.data, vc.data, vt.data,
      texture_first r tex vp vc vt x y w h u v u2 v2 hl hv hp hc ht hcc htc hn,
      by simp, Or.inl ⟨rfl, rfl, rfl⟩⟩
  | some lt0 =>
    by_cases hid : lt0.id = tex.id
    · exact ⟨_, vp.data, vc.data, vt.data,
        texture_same r lt0 tex vp vc vt x y w h u v u2 v2 hl hid hv hp hc ht hcc htc hn,
        by simp, Or.inl ⟨rfl, rfl, rfl⟩⟩
    · cases hcm : r.combined with
      | some m =>
        exact ⟨_, [], [], [],
          texture_switch r lt0 tex m vp vc vt x y w h u v u2 v2
            hl hcm hid hv hp hc ht hcc htc hn,
          by simp, Or.inr ⟨rfl, rfl, rfl⟩⟩
      | none =>
        exact ⟨_, vp.data, vc.data, vt.data,
          texture_switch_noTransform r lt0 tex vp vc vt x y w h u v u2 v2
            hl hcm hid hv hp hc ht hcc htc hn,
          by simp, Or.inl ⟨rfl, rfl, rfl⟩⟩

/-- Witness for claim C2 at the quad of the specification example:
texture(tex, 10, 20, 100, 50, 0, 0, 1, 1) on a fresh session. -/
theorem claim_C2_witness :
    ∃ r2, ((TextureRenderer.new Unit).begin ()).texture ⟨1, 1, 1, [[⟨255, 255, 255, 255⟩]]⟩
        10 20 100 50 0 0 1 1 = some r2
      ∧ r2.mesh.vao.vbos.map (fun b => b.data)
          = [[10, 20, 0, 10, 70, 0, 110, 70, 0, 110, 70, 0, 110, 20, 0, 10, 20, 0],
             quadColors,
             [0, 0, 0, 1, 1, 1, 1, 1, 1, 0, 0, 0]] := by
  obtain ⟨r2, p, c, t, he, hd, hpct⟩ := claim_C2 Unit ((TextureRenderer.new Unit).begin ())
    ⟨1, 1, 1, [[⟨255, 255, 255, 255⟩]]⟩ 10 20 100 50 0 0 1 1
    (VertexBufferObject.new .POSITIONS) (VertexBufferObject.new .COLORS)
    (VertexBufferObject.new .TEXCOORDS) rfl rfl rfl rfl rfl rfl rfl
  refine ⟨r2, he, ?_⟩
  rw [hd]
  rcases hpct with ⟨hp2, hc2, ht2⟩ | ⟨hp2, hc2, ht2⟩ <;> rw [hp2, hc2, ht2] <;>
    with_unfolding_all decide

/-- A same-texture call preserves an open session and issues no draw. -/
lemma sessionReady_step {M : Type} (m : M) (tex : Texture) (r : TextureRenderer M)
    (q : QuadArgs) (hs : SessionReady m tex r) :
    ∃ r2, r.textureQ tex q = some r2 ∧ SessionReady m tex r2 ∧ r2.draws = r.draws := by
  obtain ⟨hl, hcm, hd, hn, hcc, htc, vp, vc, vt, hv, hp, hc, ht⟩ := hs
  refine ⟨_, texture_same r tex tex vp vc vt q.x q.y q.w q.h q.u q.v q.u2 q.v2
    hl rfl hv hp hc ht hcc htc hn, ⟨hl, hcm, rfl, by simp, hcc, htc, ?_⟩, rfl⟩
  exact ⟨_, _, _, rfl, hp, hc, ht⟩

/-- A run of same-texture calls preserves an open session and issues no
draw. -/
lemma sessionReady_run {M : Type} (m : M) (tex : Texture) :
    ∀ (qs : List QuadArgs) (r : TextureRenderer M), SessionReady m tex r →
      ∃ r2, TextureRenderer.runQuads r tex qs = some r2 ∧ SessionReady m tex r2
        ∧ r2.draws = r.draws := by
  intro qs
  induction qs with
  | nil => exact fun r hs => ⟨r, rfl, hs, rfl⟩
  | cons q qs ih =>
    intro r hs
    obtain ⟨r2, he, hs2, hd2⟩ := sessionReady_step m tex r q hs
    obtain ⟨r3, he3, hs3, hd3⟩ := ih r2 hs2
    refine ⟨r3, ?_, hs3, by rw [hd3, hd2]⟩
    simp only [TextureRenderer.runQuads, he]
    exact he3

/-- The first texture call after begin opens a ready session with no
draw issued. -/
lemma sessionReady_start {M : Type} (m : M) (tex : Texture) (q : QuadArgs) :
    ∃ r1, ((TextureRenderer.new M).begin m).textureQ tex q = some r1
      ∧ SessionReady m tex r1 ∧ r1.draws = [] := by
  refine ⟨_, texture_first ((TextureRenderer.new M).begin m) tex
    (VertexBufferObject.new .POSITIONS) (VertexBufferObject.new .COLORS)
    (VertexBufferObject.new .TEXCOORDS) q.x q.y q.w q.h q.u q.v q.u2 q.v2
    rfl rfl rfl rfl rfl rfl rfl rfl, ⟨rfl, rfl, rfl, by simp, rfl, rfl, ?_⟩, rfl⟩
  exact ⟨_, _, _, rfl, rfl, rfl, rfl⟩

/-- A texture switch flushes once (drawing against the previous
texture) and leaves a ready session on the new texture. -/
lemma sessionReady_switch {M : Type} (m : M) (t1 t2 : Texture) (hid : t1.id ≠ t2.id)
    (r : TextureRenderer M) (q : QuadArgs) (hs : SessionReady m t1 r) :
    ∃ r2, r.textureQ t2 q = some r2 ∧ SessionReady m t2 r2
      ∧ r2.draws = r.draws ++ [t1.id] := by
  obtain ⟨hl, hcm, hd, hn, hcc, htc, vp, vc, vt, hv, hp, hc, ht⟩ := hs
  refine ⟨_, texture_switch r t1 t2 m vp vc vt q.x q.y q.w q.h q.u q.v q.u2 q.v2
    hl hcm hid hv hp hc ht hcc htc hn, ⟨rfl, rfl, rfl, by simp, hcc, htc, ?_⟩, rfl⟩
  exact ⟨_, _, _, rfl, hp, hc, ht⟩

/-- end on a ready session issues exactly one more draw, against the
session texture. -/
lemma endBatch_ready {M : Type} (m : M) (tex : Texture) (r : TextureRenderer M)
    (hs : SessionReady m tex r) :
    ∃ rf, r.endBatch = some rf ∧ rf.draws = r.draws ++ [tex.id] := by
  obtain ⟨hl, hcm, hd, hn, hcc, htc, vp, vc, vt, hv, hp, hc, ht⟩ := hs
  exact ⟨_, endBatch_eq r tex m vp vc vt hl hcm hv hd, rfl⟩

/-- Claim C1: within one begin/end session, N texture calls (N at least
one) against one texture issue exactly one draw call, at end; four calls
alternating T1, T2, T1, T2 with distinct texture ids issue exactly four
draw calls, one per maximal same-texture run, flushed in call order and
bound to the textures in order T1, T2, T1, T2. -/
theorem claim_C1 :
    (∀ (M : Type) (m : M) (tex : Texture) (qs : List QuadArgs), 0 < qs.length →
      ∃ rf, (TextureRenderer.runQuads ((TextureRenderer.new M).begin m) tex qs).bind
              TextureRenderer.endBatch = some rf
        ∧ rf.draws = [tex.id])
    ∧ (∀ (M : Type) (m : M) (t1 t2 : Texture) (q1 q2 q3 q4 : QuadArgs), t1.id ≠ t2.id →
      ∃ rf, (((TextureRenderer.new M).begin m).textureQ t1 q1).bind
              (fun s1 => (s1.textureQ t2 q2).bind
                (fun s2 => (s2.textureQ t1 q3).bind
                  (fun s3 => (s3.textureQ t2 q4).bind TextureRenderer.endBatch)))
            = some rf
        ∧ rf.draws = [t1.id, t2.id, t1.id, t2.id]) := by
  constructor
  · intro M m tex qs hlen
    cases qs with
    | nil => simp at hlen
    | cons q qs =>
      obtain ⟨r1, e1, s1, d1⟩ := sessionReady_start (M := M) m tex q
      obtain ⟨r2, e2, s2, d2⟩ := sessionReady_run m tex qs r1 s1
      obtain ⟨rf, e3, d3⟩ := endBatch_ready m tex r2 s2
      refine ⟨rf, ?_, ?_⟩
      · simp only [TextureRenderer.runQuads, e1, e2, Option.some_bind]
        exact e3
      · rw [d3, d2, d1]
        simp
  · intro M m t1 t2 q1 q2 q3 q4 hid
    obtain ⟨r1, e1, s1, d1⟩ := sessionReady_start (M := M) m t1 q1
    obtain ⟨r2, e2, s2, d2⟩ := sessionReady_switch m t1 t2 hid r1 q2 s1
    obtain ⟨r3, e3, s3, d3⟩ := sessionReady_switch m t2 t1 (fun hh => hid hh.symm) r2 q3 s2
    obtain ⟨r4, e4, s4, d4⟩ := sessionReady_switch m t1 t2 hid r3 q4 s3
    obtain ⟨rf, e5, d5⟩ := endBatch_ready m t2 r4 s4
    refine ⟨rf, ?_, ?_⟩
    · simp only [e1, e2, e3, e4, Option.some_bind]
      exact e5
    · rw [d5, d4, d3, d2, d1]
      simp

/-- Witness for claim C1: three quads of one texture produce the draw
trace [1]; four alternating quads of textures 1 and 2 produce the draw
trace [1, 2, 1, 2]. -/
theorem claim_C1_witness :
    (∃ rf, (TextureRenderer.runQuads ((TextureRenderer.new Unit).begin ())
              ⟨1, 1, 1, [[⟨255, 255, 255, 255⟩]]⟩
              [⟨0, 0, 1, 1, 0, 0, 1, 1⟩, ⟨2, 2, 1, 1, 0, 0, 1, 1⟩, ⟨4, 4, 1, 1, 0, 0, 1, 1⟩]).bind
            TextureRenderer.endBatch = some rf
      ∧ rf.draws = [1])
    ∧ (∃ rf, ((((TextureRenderer.new Unit).begin ()).textureQ
                ⟨1, 1, 1, [[⟨255, 255, 255, 255⟩]]⟩ ⟨0, 0, 1, 1, 0, 0, 1, 1⟩).bind
              (fun s1 => (s1.textureQ ⟨2, 1, 1, [[⟨0, 0, 0, 255⟩]]⟩ ⟨2, 2, 1, 1, 0, 0, 1, 1⟩).bind
                (fun s2 => (s2.textureQ ⟨1, 1, 1, [[⟨255, 255, 255, 255⟩]]⟩
                    ⟨4, 4, 1, 1, 0, 0, 1, 1⟩).bind
                  (fun s3 => (s3.textureQ ⟨2, 1, 1, [[⟨0, 0, 0, 255⟩]]⟩
                      ⟨6, 6, 1, 1, 0, 0, 1, 1⟩).bind TextureRenderer.endBatch))))
            = some rf
      ∧ rf.draws = [1, 2, 1, 2]) :=
  ⟨claim_C1.1 Unit () ⟨1, 1, 1, [[⟨255, 255, 255, 255⟩]]⟩
      [⟨0, 0, 1, 1, 0, 0, 1, 1⟩, ⟨2, 2, 1, 1, 0, 0, 1, 1⟩, ⟨4, 4, 1, 1, 0, 0, 1, 1⟩] (by decide),
   claim_C1.2 Unit () ⟨1, 1, 1, [[⟨255, 255, 255, 255⟩]]⟩ ⟨2, 1, 1, [[⟨0, 0, 0, 255⟩]]⟩
      ⟨0, 0, 1, 1, 0, 0, 1, 1⟩ ⟨2, 2, 1, 1, 0, 0, 1, 1⟩ ⟨4, 4, 1, 1, 0, 0, 1, 1⟩
      ⟨6, 6, 1, 1, 0, 0, 1, 1⟩ (by decide)⟩

/-- A list of length seven is a seven-element literal. -/
lemma exists_seven (l : List ℚ) (hlen : l.length = 7) :
    ∃ a0 a1 a2 a3 a4 a5 a6, l = [a0, a1, a2, a3, a4, a5, a6] := by
  rcases l with _ | ⟨a0, l⟩
  · simp at hlen
  rcases l with _ | ⟨a1, l⟩
  · simp at hlen
  rcases l with _ | ⟨a2, l⟩
  · simp at hlen
  rcases l with _ | ⟨a3, l⟩
  · simp at hlen
  rcases l with _ | ⟨a4, l⟩
  · simp at hlen
  rcases l with _ | ⟨a5, l⟩
  · simp at hlen
  rcases l with _ | ⟨a6, l⟩
  · simp at hlen
  rcases l with _ | ⟨a7, l⟩
  · exact ⟨a0, a1, a2, a3, a4, a5, a6, rfl⟩
  · simp at hlen

/-- MeshRenderer::vertex for the POSITION+COLOR layout: the position
goes into slots 0..2, the scratch buffer is de-interleaved into the two
channel VBOs, then reset to zeros. -/
lemma mr_vertex_eq (r : MeshRenderer) (vp vc : VertexBufferObject)
    (x y z a0 a1 a2 a3 a4 a5 a6 : ℚ)
    (hv : r.mesh.vao.vbos = [vp, vc])
    (hp : vp.usage = .POSITIONS) (hc : vc.usage = .COLORS)
    (hn : r.next_vertex = [a0, a1, a2, a3, a4, a5, a6]) :
    r.vertex x y z = some { r with
      mesh := { r.mesh with vao := { r.mesh.vao with vbos := [
        { vp with data := vp.data ++ [x, y, z], offset := vp.offset + 3, dirty := true },
        { vc with data := vc.data ++ [a3, a4, a5, a6], offset := vc.offset + 4,
                  dirty := true } ] } },
      next_vertex := List.replicate 7 0 } := by
  unfold MeshRenderer.vertex Mesh.vertex VertexArrayObject.vertex
  rw [hn, hv]
  simp [VertexArrayObject.vloop, VertexArrayObject.addLoop, VertexBufferObject.add_data,
    hp, hc, Usage.offset, List.append_assoc]

/-- The MeshRenderer channel setters leave the mesh untouched and
preserve the scratch-buffer length. -/
lemma mr_setter_spec (r : MeshRenderer) (a b c d x y z u v : ℚ) :
    ((r.color a b c d).mesh = r.mesh
        ∧ (r.color a b c d).next_vertex.length = r.next_vertex.length)
      ∧ ((r.normal x y z).mesh = r.mesh
        ∧ (r.normal x y z).next_vertex.length = r.next_vertex.length)
      ∧ ((r.tex_coord u v).mesh = r.mesh
        ∧ (r.tex_coord u v).next_vertex.length = r.next_vertex.length) := by
  refine ⟨?_, ?_, ?_⟩
  · unfold MeshRenderer.color
    split <;> simp
  · unfold MeshRenderer.normal
    split <;> simp
  · unfold MeshRenderer.tex_coord
    split <;> simp

/-- The TextureRenderer channel setters leave everything but the
scratch buffer untouched and preserve its length. -/
lemma tr_setter_spec {M : Type} (r : TextureRenderer M) (a b c d u v : ℚ) :
    ((r.color a b c d).mesh = r.mesh
        ∧ (r.color a b c d).next_vertex.length = r.next_vertex.length
        ∧ (r.color a b c d).last_tex = r.last_tex
        ∧ (r.color a b c d).combined = r.combined
        ∧ (r.color a b c d).dirty = r.dirty
        ∧ (r.color a b c d).draws = r.draws)
      ∧ ((r.tex_coord u v).mesh = r.mesh
        ∧ (r.tex_coord u v).next_vertex.length = r.next_vertex.length
        ∧ (r.tex_coord u v).last_tex = r.last_tex
        ∧ (r.tex_coord u v).combined = r.combined
        ∧ (r.tex_coord u v).dirty = r.dirty
        ∧ (r.tex_coord u v).draws = r.draws) := by
  refine ⟨?_, ?_⟩
  · unfold TextureRenderer.color
    split <;> simp
  · unfold TextureRenderer.tex_coord
    split <;> simp

/-- Mesh::render with a nonempty VBO list always issues some draw call
and only toggles bind state (the buffer data is untouched). -/
lemma mesh_render_some {M : Type} (mh : Mesh) (v0 : VertexBufferObject)
    (rest : List VertexBufferObject) (hv : mh.vao.vbos = v0 :: rest) (pm : M) (p : Nat) :
    ∃ dc, mh.render p pm = some
      ({ mh with vao := { mh.vao with
          vbos := (v0 :: rest).map VertexBufferObject.bind,
          vbo_indices := mh.vao.vbo_indices.bind,
          bound := false } }, dc) := by
  obtain ⟨⟨vbos0, vbi, bnd⟩, attr2⟩ := mh
  dsimp only at hv
  subst hv
  obtain ⟨iu, idta, iofs, idrt⟩ := vbi
  cases iofs with
  | zero => exact ⟨_, rfl⟩
  | succ k =>
    refine ⟨DrawCall.elements p (k + 1), ?_⟩
    simp [Mesh.render, VertexArrayObject.bind, VertexBufferObject.bind,
      VertexArrayObject.render, VertexArrayObject.unbind]

/-- Every public MeshRenderer call completes and moves the vertex count
as mrStep says. -/
lemma mrop_preserve (r : MeshRenderer) (k : Nat) (op : MROp) (h : MRInv k r) :
    ∃ r2, op.apply r = some r2 ∧ MRInv (mrStep k op) r2 := by
  obtain ⟨⟨vp, vc, hv, hp, hc, hlp, hlc⟩, hn, hi⟩ := h
  cases op with
  | colorOp a b c d =>
    refine ⟨_, rfl, ⟨vp, vc, ?_, hp, hc, hlp, hlc⟩, ?_, ?_⟩
    · rw [(mr_setter_spec r a b c d 0 0 0 0 0).1.1, hv]
    · rw [(mr_setter_spec r a b c d 0 0 0 0 0).1.2, hn]
    · rw [(mr_setter_spec r a b c d 0 0 0 0 0).1.1]
      exact hi
  | normalOp x y z =>
    refine ⟨_, rfl, ⟨vp, vc, ?_, hp, hc, hlp, hlc⟩, ?_, ?_⟩
    · rw [(mr_setter_spec r 0 0 0 0 x y z 0 0).2.1.1, hv]
    · rw [(mr_setter_spec r 0 0 0 0 x y z 0 0).2.1.2, hn]
    · rw [(mr_setter_spec r 0 0 0 0 x y z 0 0).2.1.1]
      exact hi
  | texCoordOp u v =>
    refine ⟨_, rfl, ⟨vp, vc, ?_, hp, hc, hlp, hlc⟩, ?_, ?_⟩
    · rw [(mr_setter_spec r 0 0 0 0 0 0 0 u v).2.2.1, hv]
    · rw [(mr_setter_spec r 0 0 0 0 0 0 0 u v).2.2.2, hn]
    · rw [(mr_setter_spec r 0 0 0 0 0 0 0 u v).2.2.1]
      exact hi
  | vertexOp x y z =>
    obtain ⟨a0, a1, a2, a3, a4, a5, a6, hseven⟩ := exists_seven r.next_vertex hn
    refine ⟨_, mr_vertex_eq r vp vc x y z a0 a1 a2 a3 a4 a5 a6 hv hp hc hseven,
      ⟨_, _, rfl, hp, hc, ?_, ?_⟩, by simp, hi⟩
    · simp [hlp, mrStep]
      omega
    · simp [hlc, mrStep]
      omega
  | clearOp =>
    refine ⟨_, rfl, ⟨vp.clear, vc.clear, ?_, hp, hc,
      by simp [VertexBufferObject.clear, mrStep],
      by simp [VertexBufferObject.clear, mrStep]⟩, ?_, ?_⟩
    · show (r.mesh.clear).vao.vbos = _
      unfold Mesh.clear VertexArrayObject.clear
      dsimp only
      rw [hv]
      rfl
    · show (List.replicate r.next_vertex.length 0).length = 7
      simp [hn]
    · show (r.mesh.clear).vao.vbo_indices.data = []
      unfold Mesh.clear VertexArrayObject.clear VertexBufferObject.clear
      dsimp only
  | renderOp p =>
    obtain ⟨dc, hrender⟩ := mesh_render_some r.mesh vp [vc] (by rw [hv]) () p
    refine ⟨{ r with mesh := { r.mesh with vao := { r.mesh.vao with
        vbos := [vp.bind, vc.bind],
        vbo_indices := r.mesh.vao.vbo_indices.bind,
        bound := false } } },
      ?_, ⟨vp.bind, vc.bind, rfl, hp, hc, hlp, hlc⟩, hn, hi⟩
    show (r.render () p).map Prod.fst = _
    unfold MeshRenderer.render
    rw [hrender]
    rfl

/-- Running any MeshRenderer call sequence completes, and the channel
buffers track the vertex count computed by mrCount. -/
lemma runMR_inv : ∀ (ops : List MROp) (r : MeshRenderer) (k : Nat), MRInv k r →
    ∃ s, runMR r ops = some s ∧ MRInv (mrCount k ops) s := by
  intro ops
  induction ops with
  | nil => exact fun r k h => ⟨r, rfl, h⟩
  | cons op ops ih =>
    intro r k h
    obtain ⟨r2, he, h2⟩ := mrop_preserve r k op h
    obtain ⟨s, hs, hinv⟩ := ih r2 (mrStep k op) h2
    refine ⟨s, ?_, hinv⟩
    simp only [runMR, he]
    exact hs

/-- Every TextureRenderer::texture call on a well-formed state completes
and leaves a well-formed state (six vertices more, after a possible
flush-and-clear). -/
lemma texture_preserve {M : Type} (r : TextureRenderer M) (tex : Texture)
    (x y w h u v u2 v2 : ℚ) (n : Nat) (hinv : TRInv n r) :
    ∃ r2 n2, r.texture tex x y w h u v u2 v2 = some r2 ∧ TRInv n2 r2 := by
  obtain ⟨⟨vp, vc, vt, hv, hp, hc, ht, hlp, hlc, hlt⟩, hn, hcc, htc, hi⟩ := hinv
  have hquad : ∀ (r2 : TextureRenderer M),
      r2.mesh.vao.vbos = [
        { vp with data := vp.data ++ quadPositions x y w h, offset := vp.offset + 18,
                  dirty := true },
        { vc with data := vc.data ++ quadColors, offset := vc.offset + 24, dirty := true },
        { vt with data := vt.data ++ quadTexCoords u v u2 v2, offset := vt.offset + 12,
                  dirty := true } ] →
      r2.next_vertex = List.replicate 9 0 →
      r2.mesh.attribs = r.mesh.attribs →
      r2.mesh.vao.vbo_indices.data = r.mesh.vao.vbo_indices.data →
      TRInv (n + 6) r2 := by
    intro r2 h1 h2 h3 h4
    refine ⟨⟨_, _, _, h1, hp, hc, ht, ?_, ?_, ?_⟩, by rw [h2]; simp, by rw [h3]; exact hcc,
      by rw [h3]; exact htc, by rw [h4]; exact hi⟩
    · simp [hlp, quadPositions]
      omega
    · simp [hlc, quadColors]
      omega
    · simp [hlt, quadTexCoords]
      omega
  cases hl : r.last_tex with
  | none =>
    exact ⟨_, n + 6, texture_first r tex vp vc vt x y w h u v u2 v2 hl hv hp hc ht hcc htc hn,
      hquad _ rfl rfl rfl rfl⟩
  | some lt0 =>
    by_cases hid : lt0.id = tex.id
    · exact ⟨_, n + 6,
        texture_same r lt0 tex vp vc vt x y w h u v u2 v2 hl hid hv hp hc ht hcc htc hn,
        hquad _ rfl rfl rfl rfl⟩
    · cases hcm : r.combined with
      | none =>
        exact ⟨_, n + 6, texture_switch_noTransform r lt0 tex vp vc vt x y w h u v u2 v2
          hl hcm hid hv hp hc ht hcc htc hn, hquad _ rfl rfl rfl rfl⟩
      | some m =>
        refine ⟨_, 6, texture_switch r lt0 tex m vp vc vt x y w h u v u2 v2
          hl hcm hid hv hp hc ht hcc htc hn, ⟨_, _, _, rfl, hp, hc, ht, ?_, ?_, ?_⟩,
          by simp, hcc, htc, by simp [VertexBufferObject.clear]⟩
        · simp [quadPositions]
        · simp [quadColors]
        · simp [quadTexCoords]

/-- Every public TextureRenderer call on a well-formed state completes
and leaves a well-formed state. -/
lemma trop_preserve {M : Type} (r : TextureRenderer M) (n : Nat) (op : TROp M)
    (hinv : TRInv n r) :
    ∃ r2 n2, op.apply r = some r2 ∧ TRInv n2 r2 := by
  have hflush : ∃ r2 n2, r.flush = some r2 ∧ TRInv n2 r2 := by
    have hsave := hinv
    obtain ⟨⟨vp, vc, vt, hv, hp, hc, ht, hlp, hlc, hlt⟩, hn, hcc, htc, hi⟩ := hsave
    cases hl : r.last_tex with
    | none =>
      refine ⟨r, n, ?_, hinv⟩
      unfold TextureRenderer.flush
      rw [hl]
    | some lt0 =>
      cases hcm : r.combined with
      | none =>
        refine ⟨r, n, ?_, hinv⟩
        unfold TextureRenderer.flush
        rw [hl, hcm]
      | some m =>
        refine ⟨_, 0, flush_eq r lt0 m vp vc vt hl hcm hv,
          ⟨vp.clear, vc.clear, vt.clear, rfl, hp, hc, ht,
            by simp [VertexBufferObject.clear], by simp [VertexBufferObject.clear],
            by simp [VertexBufferObject.clear]⟩,
          hn, hcc, htc, by simp [VertexBufferObject.clear]⟩
  cases op with
  | beginOp m =>
    exact ⟨_, n, rfl, hinv⟩
  | textureOp tex q =>
    exact texture_preserve r tex q.x q.y q.w q.h q.u q.v q.u2 q.v2 n hinv
  | textureXYOp tex a b =>
    exact texture_preserve r tex a b (tex.width : ℚ) (tex.height : ℚ) 0 0 1 1 n hinv
  | vertexOp x y z =>
    obtain ⟨⟨vp, vc, vt, hv, hp, hc, ht, hlp, hlc, hlt⟩, hn, hcc, htc, hi⟩ := hinv
    obtain ⟨a0, a1, a2, a3, a4, a5, a6, a7, a8, hnine⟩ := exists_nine r.next_vertex hn
    refine ⟨_, n + 1, tr_vertex_eq r vp vc vt x y z a0 a1 a2 a3 a4 a5 a6 a7 a8 hv hp hc ht hnine,
      ⟨_, _, _, rfl, hp, hc, ht, ?_, ?_, ?_⟩, by simp, hcc, htc, hi⟩
    · simp [hlp]
      omega
    · simp [hlc]
      omega
    · simp [hlt]
      omega
  | colorOp a b c d =>
    obtain ⟨⟨vp, vc, vt, hv, hp, hc, ht, hlp, hlc, hlt⟩, hn, hcc, htc, hi⟩ := hinv
    obtain ⟨⟨hm, hlen, _, _, _, _⟩, _⟩ := tr_setter_spec r a b c d 0 0
    exact ⟨_, n, rfl, ⟨vp, vc, vt, by rw [hm, hv], hp, hc, ht, hlp, hlc, hlt⟩,
      by rw [hlen, hn], by rw [hm]; exact hcc, by rw [hm]; exact htc, by rw [hm]; exact hi⟩
  | texCoordOp u v =>
    obtain ⟨⟨vp, vc, vt, hv, hp, hc, ht, hlp, hlc, hlt⟩, hn, hcc, htc, hi⟩ := hinv
    obtain ⟨_, ⟨hm, hlen, _, _, _, _⟩⟩ := tr_setter_spec r 0 0 0 0 u v
    exact ⟨_, n, rfl, ⟨vp, vc, vt, by rw [hm, hv], hp, hc, ht, hlp, hlc, hlt⟩,
      by rw [hlen, hn], by rw [hm]; exact hcc, by rw [hm]; exact htc, by rw [hm]; exact hi⟩
  | flushOp =>
    exact hflush
  | endOp =>
    obtain ⟨r2, n2, hfl, hinv2⟩ := hflush
    cases hd : r.dirty with
    | false =>
      refine ⟨{ r with combined := none, last_tex := none }, n, ?_,
        hinv.1, hinv.2.1, hinv.2.2.1, hinv.2.2.2.1, hinv.2.2.2.2⟩
      show r.endBatch = _
      unfold TextureRenderer.endBatch
      rw [hd]
      simp [hd]
    | true =>
      refine ⟨{ r2 with combined := none, last_tex := none }, n2, ?_,
        hinv2.1, hinv2.2.1, hinv2.2.2.1, hinv2.2.2.2.1, hinv2.2.2.2.2⟩
      show r.endBatch = _
      unfold TextureRenderer.endBatch
      rw [hd, hfl]
      rfl

/-- Running any TextureRenderer call sequence completes in a well-formed
state. -/
lemma runTR_inv {M : Type} : ∀ (ops : List (TROp M)) (r : TextureRenderer M) (n : Nat),
    TRInv n r → ∃ s n2, runTR r ops = some s ∧ TRInv n2 s := by
  intro ops
  induction ops with
  | nil => exact fun r n h => ⟨r, n, rfl, h⟩
  | cons op ops ih =>
    intro r n h
    obtain ⟨r2, n2, he, h2⟩ := trop_preserve r n op h
    obtain ⟨s, n3, hs, hinv⟩ := ih r2 n2 h2
    refine ⟨s, n3, ?_, hinv⟩
    simp only [runTR, he]
    exact hs

/-- A successful inner append loop preserves the channel tag and grows
the buffer by exactly the appended count. -/
lemma addLoop_sound (data : List ℚ) :
    ∀ (k : Nat) (v v2 : VertexBufferObject) (start : Nat),
      VertexArrayObject.addLoop v data start k = some v2 →
      v2.usage = v.usage ∧ v2.data.length = v.data.length + k := by
  intro k
  induction k with
  | zero =>
    intro v v2 start h
    rw [VertexArrayObject.addLoop] at h
    cases h
    exact ⟨rfl, rfl⟩
  | succ k ih =>
    intro v v2 start h
    rw [VertexArrayObject.addLoop] at h
    cases hg : data[start]? with
    | none => rw [hg] at h; cases h
    | some x =>
      rw [hg] at h
      obtain ⟨hu, hl⟩ := ih (v.add_data x) v2 (start + 1) h
      refine ⟨hu, ?_⟩
      rw [hl]
      simp [VertexBufferObject.add_data]
      omega

/-- A successful vertex loop maps each resulting VBO to a source VBO
with the same channel tag and one component count more data. -/
lemma vloop_mem (data : List ℚ) :
    ∀ (vbos : List VertexBufferObject) (off : Nat) (vs : List VertexBufferObject),
      VertexArrayObject.vloop vbos data off = some vs →
      ∀ b2 ∈ vs, ∃ b ∈ vbos, b2.usage = b.usage
        ∧ b2.data.length = b.data.length + b.usage.offset := by
  intro vbos
  induction vbos with
  | nil =>
    intro off vs h
    rw [VertexArrayObject.vloop] at h
    cases h
    intro b2 hb2
    cases hb2
  | cons v rest ih =>
    intro off vs h
    rw [VertexArrayObject.vloop] at h
    cases h1 : VertexArrayObject.addLoop v data off v.usage.offset with
    | none => rw [h1] at h; cases h
    | some v2 =>
      rw [h1] at h
      cases h2 : VertexArrayObject.vloop rest data (off + v.usage.offset) with
      | none => rw [h2] at h; cases h
      | some r2 =>
        rw [h2] at h
        cases h
        intro b2 hb2
        rcases List.mem_cons.mp hb2 with hb2 | hb2
        · subst hb2
          obtain ⟨hu, hl⟩ := addLoop_sound data v.usage.offset v b2 off h1
          exact ⟨v, List.mem_cons_self v rest, hu, hl⟩
        · obtain ⟨b, hb, hu, hl⟩ := ih (off + v.usage.offset) r2 h2 b2 hb2
          exact ⟨b, List.mem_cons_of_mem v hb, hu, hl⟩

/-- One successful Mesh call preserves the shared-vertex-count shape of
the channel buffers. -/
lemma runMesh_inv :
    ∀ (mops : List MeshOp) (mh : Mesh) (n : Nat),
      (∀ b ∈ mh.vao.vbos, b.data.length = n * b.usage.offset) →
      ∀ s, runMesh mh mops = some s →
        ∃ n2, ∀ b ∈ s.vao.vbos, b.data.length = n2 * b.usage.offset := by
  intro mops
  induction mops with
  | nil =>
    intro mh n h s hs
    rw [runMesh] at hs
    cases hs
    exact ⟨n, h⟩
  | cons op mops ih =>
    intro mh n h s hs
    cases op with
    | vertexOp data =>
      rw [runMesh] at hs
      cases hv : mh.vertex data with
      | none => rw [hv] at hs; cases hs
      | some m2 =>
        rw [hv] at hs
        refine ih m2 (n + 1) ?_ s hs
        unfold Mesh.vertex VertexArrayObject.vertex at hv
        cases hvl : VertexArrayObject.vloop mh.vao.vbos data 0 with
        | none => rw [hvl] at hv; cases hv
        | some vs =>
          rw [hvl] at hv
          cases hv
          intro b2 hb2
          obtain ⟨b, hb, hu, hl⟩ := vloop_mem data mh.vao.vbos 0 vs hvl b2 hb2
          rw [hl, h b hb, hu]
          ring
    | clearOp =>
      rw [runMesh] at hs
      refine ih mh.clear 0 ?_ s hs
      intro b2 hb2
      have : b2 ∈ mh.vao.vbos.map VertexBufferObject.clear := hb2
      obtain ⟨b, _, hb⟩ := List.mem_map.mp this
      rw [← hb]
      simp [VertexBufferObject.clear]

/-- Claim C10: through the public MeshRenderer, TextureRenderer and Mesh
interfaces, every completed call sequence leaves all channel buffers
holding the same number of complete vertices: each buffer's float count
is the vertex count times its component count (3, 4 and 2 for the
POSITION, COLOR and TEXCOORD channels), the count a MeshRenderer
sequence reaches being exactly the number of vertex calls since the last
clear, and the index buffer stays empty. -/
theorem claim_C10 :
    (∀ ops : List MROp, ∃ s, runMR MeshRenderer.new ops = some s
      ∧ s.mesh.vao.vbos.map (fun b => b.data.length)
          = [3 * mrCount 0 ops, 4 * mrCount 0 ops]
      ∧ s.mesh.vao.vbo_indices.data = [])
    ∧ (∀ (M : Type) (ops : List (TROp M)), ∃ s n, runTR (TextureRenderer.new M) ops = some s
      ∧ s.mesh.vao.vbos.map (fun b => b.data.length) = [3 * n, 4 * n, 2 * n]
      ∧ s.mesh.vao.vbo_indices.data = [])
    ∧ (∀ (hp hc hn ht : Bool) (mops : List MeshOp) (s : Mesh),
        runMesh (Mesh.new (VertexAttributes.withFlags hp hc hn ht)) mops = some s →
        ∃ n, ∀ b ∈ s.vao.vbos, b.data.length = n * b.usage.offset) := by
  refine ⟨?_, ?_, ?_⟩
  · intro ops
    obtain ⟨s, hs, ⟨vp, vc, hv, _, _, hlp, hlc⟩, _, hi⟩ :=
      runMR_inv ops MeshRenderer.new 0
        ⟨⟨VertexBufferObject.new .POSITIONS, VertexBufferObject.new .COLORS,
          rfl, rfl, rfl, rfl, rfl⟩, rfl, rfl⟩
    exact ⟨s, hs, by rw [hv]; simp [hlp, hlc], hi⟩
  · intro M ops
    obtain ⟨s, n, hs, ⟨vp, vc, vt, hv, _, _, _, hlp, hlc, hlt⟩, _, _, _, hi⟩ :=
      runTR_inv ops (TextureRenderer.new M) 0
        ⟨⟨VertexBufferObject.new .POSITIONS, VertexBufferObject.new .COLORS,
          VertexBufferObject.new .TEXCOORDS, rfl, rfl, rfl, rfl, rfl, rfl, rfl⟩,
          rfl, rfl, rfl, rfl⟩
    exact ⟨s, n, hs, by rw [hv]; simp [hlp, hlc, hlt], hi⟩
  · intro hp hc hn ht mops s hs
    refine runMesh_inv mops (Mesh.new (VertexAttributes.withFlags hp hc hn ht)) 0 ?_ s hs
    intro b hb
    obtain ⟨u, _, hu⟩ := List.mem_map.mp hb
    rw [← hu]
    simp [VertexBufferObject.new]

/-- Witness for claim C10: one MeshRenderer vertex, a begun
TextureRenderer session with one quad, and a Mesh vertex-then-clear
sequence. -/
theorem claim_C10_witness :
    (∃ s, runMR MeshRenderer.new [MROp.vertexOp 1 2 3] = some s
      ∧ s.mesh.vao.vbos.map (fun b => b.data.length)
          = [3 * mrCount 0 [MROp.vertexOp 1 2 3], 4 * mrCount 0 [MROp.vertexOp 1 2 3]]
      ∧ s.mesh.vao.vbo_indices.data = [])
    ∧ (∃ s n, runTR (TextureRenderer.new Unit)
          [TROp.beginOp (), TROp.textureOp ⟨1, 1, 1, [[⟨255, 255, 255, 255⟩]]⟩
            ⟨0, 0, 1, 1, 0, 0, 1, 1⟩] = some s
      ∧ s.mesh.vao.vbos.map (fun b => b.data.length) = [3 * n, 4 * n, 2 * n]
      ∧ s.mesh.vao.vbo_indices.data = [])
    ∧ (∃ n, ∀ b ∈ (Mesh.mk
          (VertexArrayObject.mk [VertexBufferObject.mk .POSITIONS [] 0 true]
            (VertexBufferObject.mk .INDICES [] 0 true) false)
          (VertexAttributes.withFlags true false false false)).vao.vbos,
        b.data.length = n * b.usage.offset) :=
  ⟨claim_C10.1 [MROp.vertexOp 1 2 3],
   claim_C10.2.1 Unit [TROp.beginOp (), TROp.textureOp ⟨1, 1, 1, [[⟨255, 255, 255, 255⟩]]⟩
     ⟨0, 0, 1, 1, 0, 0, 1, 1⟩],
   claim_C10.2.2 true false false false [MeshOp.vertexOp [1, 2, 3], MeshOp.clearOp] _
     (by decide)⟩

/-- Claim C8: for every combination of the four enable flags the stride
is the sum of the enabled component counts (POSITION 3, COLOR 4,
NORMAL 3, TEXCOORD 2, in that order), each enabled offset is the sum of
the counts of the enabled channels before it, the enabled intervals
partition the stride with no gaps or overlaps, disabled channels get the
sentinel offset 0 and the INDEX channel contributes nothing. -/
theorem claim_C8 : ∀ hp hc hn ht : Bool, layoutSpec hp hc hn ht := by
  intro hp hc hn ht
  cases hp <;> cases hc <;> cases hn <;> cases ht <;> decide

/-- Witness for claim C8 at the TextureRenderer layout. -/
theorem claim_C8_witness : layoutSpec true true false true :=
  claim_C8 true true false true

/-- Claim C9 amended: appending a full vertex through Mesh::vertex (and
hence VertexArrayObject::vertex) fails to complete normally (panics via
an out-of-range index, without an up-front assertion) exactly when the
slice is shorter than the layout stride; a slice longer than the stride
completes normally with the trailing data silently ignored. -/
theorem claim_C9_amended :
    ∀ (hp hc hn ht : Bool) (data : List ℚ),
      (Mesh.new (VertexAttributes.withFlags hp hc hn ht)).vertex data = none
        ↔ data.length < (VertexAttributes.withFlags hp hc hn ht).vertex_size := by
  intro hp hc hn ht data
  have h := vao_vertex_eq_none_iff
    (VertexArrayObject.new (VertexAttributes.withFlags hp hc hn ht)) data
  rw [totalComps_new] at h
  unfold Mesh.vertex Mesh.new
  cases hv : (VertexArrayObject.new (VertexAttributes.withFlags hp hc hn ht)).vertex data with
  | none =>
    rw [hv] at h
    simp only [Option.map_none', true_iff]
    exact h.mp rfl
  | some v2 =>
    rw [hv] at h
    simp only [Option.map_some', reduceCtorEq, false_iff]
    intro hlt
    exact Option.noConfusion (h.mpr hlt)

/-- Witness for claim C9 amended: a two-float slice against the
positions-only layout (stride 3) panics. -/
theorem claim_C9_witness :
    (Mesh.new (VertexAttributes.withFlags true false false false)).vertex [1, 2] = none :=
  (claim_C9_amended true false false false [1, 2]).mpr (by decide)

/-- Claim C9 fails as stated: a four-float slice against the
positions-only layout (stride 3) completes normally, silently ignoring
the trailing value, although its length differs from the stride. -/
theorem claim_C9_counterexample :
    ((Mesh.new (VertexAttributes.withFlags true false false false)).vertex
        [1, 2, 3, 4]).isSome = true
      ∧ (4 : Nat) ≠ (VertexAttributes.withFlags true false false false).vertex_size := by
  decide

/-- Claim C4 fails in the code: multiply feeds the already-flipped
retained image back through from_image, which flips again, so the
derived texture retains the vertical flip of the scaled original rather
than the scaled original; with factors (1,1,1,1) the result is not
pixel-identical to the source. -/
theorem claim_C4_eval :
    (Texture.multiply (Texture.from_image 1 [[⟨10, 20, 30, 40⟩], [⟨50, 60, 70, 80⟩]]) 2 1 1 1 1).original_image
        ≠ scaleImage 1 1 1 1 (Texture.from_image 1 [[⟨10, 20, 30, 40⟩], [⟨50, 60, 70, 80⟩]]).original_image
      ∧ (Texture.multiply (Texture.from_image 1 [[⟨10, 20, 30, 40⟩], [⟨50, 60, 70, 80⟩]]) 2 1 1 1 1).original_image
        ≠ (Texture.from_image 1 [[⟨10, 20, 30, 40⟩], [⟨50, 60, 70, 80⟩]]).original_image
      ∧ (Texture.multiply (Texture.from_image 1 [[⟨10, 20, 30, 40⟩], [⟨50, 60, 70, 80⟩]]) 2 1 1 1 1).original_image
        = flipVertical (scaleImage 1 1 1 1
            (Texture.from_image 1 [[⟨10, 20, 30, 40⟩], [⟨50, 60, 70, 80⟩]]).original_image) := by
  with_unfolding_all decide

/-- Claim C5 fails in the code: after appending exactly one vertex to a
POSITION+COLOR mesh (one three-float position, one four-float color),
the non-indexed render issues DrawArrays with vbos[0].data.len() = 3,
the float count of the position buffer, not the vertex count 1. -/
theorem claim_C5_eval :
    ((VertexArrayObject.new (VertexAttributes.withFlags true true false false)).vertex
        [1, 2, 3, 4, 5, 6, 7]).map
        (fun v => (v.vbos.map (fun b => b.data.length), v.bind.render GL_TRIANGLES))
      = some ([3, 4], some (DrawCall.arrays GL_TRIANGLES 3)) := by
  decide

/-- Claim C6 fails in the code: check_uniform never inserts into the
uniforms map (set_uniform takes a shared reference), so after two
identical set_uniform_mat4f calls the cache is still empty and each call
re-resolved the location through GetUniformLocation. -/
theorem claim_C6_eval :
    (ShaderProgram.set_uniform_mat4f (fun _ => 7) ShaderProgram.newLinked
        "projModelView" ()).1.uniforms = []
      ∧ (ShaderProgram.set_uniform_mat4f (fun _ => 7) ShaderProgram.newLinked
          "projModelView" ()).2
        = [.getUniformLocation "projModelView" 7, .uniformMatrix4fv 7]
      ∧ (ShaderProgram.set_uniform_mat4f (fun _ => 7)
          (ShaderProgram.set_uniform_mat4f (fun _ => 7) ShaderProgram.newLinked
            "projModelView" ()).1 "projModelView" ()).2
        = [.getUniformLocation "projModelView" 7, .uniformMatrix4fv 7] := by
  decide

/-- Claim C7 fails in the code: with the target equal to the position,
normalize produces a NaN vector, the IEEE comparison NaN == 0 is false,
so the zero-vector guard does not fire and the NaN direction and up are
stored instead of the call being a no-op. -/
theorem claim_C7_eval :
    ((Camera.new 0 0 0 (F.val 800) (F.val 600)).look_at 0 0 0).direction
        = ⟨F.nan, F.nan, F.nan⟩
      ∧ ((Camera.new 0 0 0 (F.val 800) (F.val 600)).look_at 0 0 0).up
        = ⟨F.nan, F.nan, F.nan⟩
      ∧ (Camera.new 0 0 0 (F.val 800) (F.val 600)).direction = ⟨0, 0, -(1 : F)⟩ := by
  with_unfolding_all decide

/-- Claim C3 fails as stated: look_at does not recompute the matrices,
so after looking from the origin at (3,4,0) the stored combined matrix
differs from projection * view recomputed from the camera state. -/
theorem claim_C3_counterexample :
    ¬ Camera.Recomputed
        ((Camera.new 0 0 0 (F.val 800) (F.val 600)).look_at (F.val 3) (F.val 4) 0) := by
  unfold Camera.Recomputed
  with_unfolding_all decide

/-- Claim C3 amended: rotate, translate and the with_perspective mode
switch recompute the derived matrices immediately (so combined equals
projection * view of the current state), while look_at mutates only
direction and up and leaves the stored view, projection and combined
matrices unchanged until the next updating operation. -/
theorem claim_C3_amended :
    ∀ (c : Camera) (dx dy dz : F) (angle : ℚ) (axis : Vec3F) (zn zf : F) (tx ty tz : F),
      (c.translate dx dy dz).Recomputed
        ∧ (c.rotate angle axis).Recomputed
        ∧ (c.with_perspective zn zf).Recomputed
        ∧ (c.look_at tx ty tz).projection = c.projection
        ∧ (c.look_at tx ty tz).view = c.view
        ∧ (c.look_at tx ty tz).combined = c.combined := by
  intro c dx dy dz angle axis zn zf tx ty tz
  exact ⟨update_Recomputed _, update_Recomputed _, update_Recomputed _,
    look_at_stale c tx ty tz⟩

end Rendgine
